import Mathlib

/-!
# SheetAI — verification of the batch orchestration core

Shallow embedding of the Google Apps Script source `src/SheetAI.js`
(the file concatenates several variants of the script; each embedded
definition names the variant/line range it is translated from).

JavaScript strings are embedded as `List Char`; sheet cell values as the
`Cell` inductive (number / string / boolean / blank); JS `undefined`
appears where property access can produce it.  Numbers are embedded as
`Rat` (exact arithmetic standing in for JS doubles; no claim below
depends on floating-point rounding).
-/

namespace SheetAI

/-- JavaScript strings, embedded as lists of unicode scalar values. -/
abbrev JStr := List Char

/-- Shorthand turning a Lean string literal into the embedded string type. -/
def str (s : String) : JStr := s.data

/-- Whitespace for JS `trim` / `parseInt` (space, tab, newline, carriage
return; the less common unicode space classes are not modelled — no string
handled by the embedded functions contains them). -/
def isWsChar (c : Char) : Bool :=
  c = ' ' || c = '\t' || c = '\n' || c = '\r'

/-- JS `String.prototype.trim`. -/
def jsTrim (s : JStr) : JStr :=
  (s.dropWhile isWsChar).reverse.dropWhile isWsChar |>.reverse

/-- ASCII lowercasing, the effect of JS `toLowerCase` on the ASCII model
identifiers that appear in the pricing tables. -/
def asciiLower (c : Char) : Char :=
  if 'A' ≤ c ∧ c ≤ 'Z' then Char.ofNat (c.toNat + 32) else c

/-- JS `String.prototype.toLowerCase` (ASCII fragment). -/
def jsToLowerCase (s : JStr) : JStr := s.map asciiLower

/-- Decimal digit predicate (codepoints 48–57, i.e. the characters 0–9). -/
def isDigitChar (c : Char) : Bool := 48 ≤ c.toNat ∧ c.toNat ≤ 57

theorem char_toNat_ofNat_valid (n : Nat) (h : n.isValidChar) :
    (Char.ofNat n).toNat = n := by
  simp [Char.ofNat, h, Char.ofNatAux, Char.toNat, UInt32.toNat, BitVec.toNat_ofNatLt]

theorem digit_not_ws {c : Char} (h : isDigitChar c = true) : isWsChar c = false := by
  simp only [isDigitChar, decide_eq_true_eq] at h
  simp only [isWsChar, Bool.or_eq_false_iff, decide_eq_false_iff_not]
  refine ⟨⟨⟨?_, ?_⟩, ?_⟩, ?_⟩ <;> (intro h2; subst h2; revert h; decide)

/-- Fuel-driven decimal printer (structural recursion so that the kernel
can evaluate it; `natToDigits` supplies sufficient fuel). -/
def natToDigitsF : Nat → Nat → JStr
  | 0, _ => []
  | fuel + 1, n =>
    if n < 10 then [Char.ofNat (48 + n)]
    else natToDigitsF fuel (n / 10) ++ [Char.ofNat (48 + n % 10)]

/-- The decimal representation of a natural number, as produced by JS
template interpolation of a non-negative integer. -/
def natToDigits (n : Nat) : JStr := natToDigitsF (n + 1) n

theorem natToDigitsF_congr : ∀ (f1 : Nat) (n f2 : Nat), n < f1 → n < f2 →
    natToDigitsF f1 n = natToDigitsF f2 n := by
  intro f1
  induction f1 with
  | zero => intro n f2 h1; omega
  | succ f1 ih =>
    intro n f2 h1 h2
    cases f2 with
    | zero => omega
    | succ f2 =>
      simp only [natToDigitsF]
      by_cases hn : n < 10
      · rw [if_pos hn, if_pos hn]
      · rw [if_neg hn, if_neg hn, ih (n / 10) f2 (by omega) (by omega)]

theorem natToDigits_unfold (n : Nat) :
    natToDigits n = if n < 10 then [Char.ofNat (48 + n)]
      else natToDigits (n / 10) ++ [Char.ofNat (48 + n % 10)] := by
  show natToDigitsF (n + 1) n = _
  by_cases hn : n < 10
  · simp only [natToDigitsF, if_pos hn]
  · simp only [natToDigitsF, if_neg hn]
    rw [natToDigitsF_congr n (n / 10) (n / 10 + 1) (by omega) (by omega)]
    rfl

/-- Value of a digit string (used on the `takeWhile isDigitChar` prefix). -/
def digitsVal (ds : JStr) : Nat :=
  ds.foldl (fun a c => a * 10 + (c.toNat - 48)) 0

/-- JS `parseInt(s)` (radix 10): skip leading whitespace, optional sign,
then the maximal run of leading digits; `none` models `NaN` (no digits).
Trailing non-digit characters are ignored, as in JS. -/
def jsParseInt (s : JStr) : Option Int :=
  let t := s.dropWhile isWsChar
  let signAndRest : Int × JStr :=
    match t with
    | c :: rest => if c = '-' then (-1, rest) else if c = '+' then (1, rest) else (1, t)
    | [] => (1, [])
  let ds := signAndRest.2.takeWhile isDigitChar
  if ds = [] then none else some (signAndRest.1 * (digitsVal ds : Int))

/-- JS `String.prototype.split("-")`: split on every occurrence of the
delimiter, keeping empty pieces. -/
def splitOnDash : JStr → List JStr
  | [] => [[]]
  | c :: cs =>
    if c = '-' then [] :: splitOnDash cs
    else
      match splitOnDash cs with
      | [] => [[c]]
      | t :: ts => (c :: t) :: ts

/-- JS `Array.prototype.join("-")`. -/
def joinDash : List JStr → JStr
  | [] => []
  | [t] => t
  | t :: ts => t ++ '-' :: joinDash ts

theorem splitOnDash_ne_nil (s : JStr) : splitOnDash s ≠ [] := by
  cases s with
  | nil => simp [splitOnDash]
  | cons c cs =>
    simp only [splitOnDash]
    split
    · simp
    · split <;> simp

theorem joinDash_splitOnDash (s : JStr) : joinDash (splitOnDash s) = s := by
  induction s with
  | nil => rfl
  | cons c cs ih =>
    simp only [splitOnDash]
    split
    · rename_i hc
      subst hc
      cases h : splitOnDash cs with
      | nil => exact absurd h (splitOnDash_ne_nil cs)
      | cons t ts =>
        rw [h] at ih
        simp [joinDash, ih]
    · cases h : splitOnDash cs with
      | nil => exact absurd h (splitOnDash_ne_nil cs)
      | cons t ts =>
        rw [h] at ih
        cases ts with
        | nil => simp_all [joinDash]
        | cons t2 ts2 => simp_all [joinDash]

theorem splitOnDash_append_of_noDash (a b : JStr) (ha : '-' ∉ a) :
    splitOnDash (a ++ '-' :: b) = a :: splitOnDash b := by
  induction a with
  | nil => simp [splitOnDash]
  | cons c cs ih =>
    have hc : c ≠ '-' := by
      intro h; exact ha (by simp [h])
    have hcs : '-' ∉ cs := fun h => ha (List.mem_cons_of_mem _ h)
    have hih := ih hcs
    simp only [List.cons_append, splitOnDash, hc, if_false]
    simp only [List.append_eq] at *
    rw [hih]

theorem natToDigits_all_digits (n : Nat) : ∀ c ∈ natToDigits n, isDigitChar c = true := by
  induction n using Nat.strong_induction_on with
  | _ n ih =>
    intro c hc
    rw [natToDigits_unfold] at hc
    split at hc
    · rename_i h
      simp only [List.mem_singleton] at hc
      subst hc
      have hv : (48 + n).isValidChar := by constructor; omega
      simp only [isDigitChar, char_toNat_ofNat_valid _ hv, decide_eq_true_eq]
      omega
    · rename_i h
      rcases List.mem_append.1 hc with h1 | h1
      · exact ih (n / 10) (by omega) c h1
      · simp only [List.mem_singleton] at h1
        subst h1
        have hv : (48 + n % 10).isValidChar := by constructor; omega
        simp only [isDigitChar, char_toNat_ofNat_valid _ hv, decide_eq_true_eq]
        omega

theorem natToDigits_ne_nil (n : Nat) : natToDigits n ≠ [] := by
  rw [natToDigits_unfold]
  split <;> simp

theorem digitsVal_append_digit (ds : JStr) (c : Char) :
    digitsVal (ds ++ [c]) = digitsVal ds * 10 + (c.toNat - 48) := by
  simp [digitsVal, List.foldl_append]

theorem digitsVal_natToDigits (n : Nat) : digitsVal (natToDigits n) = n := by
  induction n using Nat.strong_induction_on with
  | _ n ih =>
    rw [natToDigits_unfold]
    split
    · rename_i h
      have hv : (48 + n).isValidChar := by constructor; omega
      simp only [digitsVal, List.foldl_cons, List.foldl_nil,
        char_toNat_ofNat_valid _ hv]
      omega
    · rename_i h
      rw [digitsVal_append_digit, ih (n / 10) (by omega)]
      have hv : (48 + n % 10).isValidChar := by constructor; omega
      rw [char_toNat_ofNat_valid _ hv]
      omega

theorem jsParseInt_natToDigits (n : Nat) : jsParseInt (natToDigits n) = some n := by
  have hd := natToDigits_all_digits n
  have hval := digitsVal_natToDigits n
  cases hds : natToDigits n with
  | nil => exact absurd hds (natToDigits_ne_nil n)
  | cons c cs =>
    rw [hds] at hd hval
    have hc := hd c (by simp)
    have hcw : isWsChar c = false := digit_not_ws hc
    have hcnd : c ≠ '-' ∧ c ≠ '+' := by
      simp only [isDigitChar, decide_eq_true_eq] at hc
      constructor <;> (intro h; subst h; revert hc; decide)
    have hdrop : (c :: cs).dropWhile isWsChar = c :: cs := by
      simp [List.dropWhile_cons, hcw]
    have htake : (c :: cs).takeWhile isDigitChar = c :: cs :=
      List.takeWhile_eq_self_iff.2 hd
    simp only [jsParseInt, hdrop, hcnd.1, hcnd.2, if_false, htake]
    simp [hval]

/-! ## Percent-encoding (JS encodeURIComponent / decodeURIComponent)

`encodeURIComponent` leaves the unreserved characters
A–Z a–z 0–9 `- _ . ! ~ * ' ( )` intact and replaces every other character
by the percent-encoded bytes of its UTF-8 encoding (uppercase hex).
`decodeURIComponent` reverses this; a malformed percent sequence raises
`URIError`, modelled as `none`. -/

/-- The characters `encodeURIComponent` leaves unescaped. -/
def isUnreservedUriChar (c : Char) : Bool :=
  (65 ≤ c.toNat ∧ c.toNat ≤ 90) ∨ (97 ≤ c.toNat ∧ c.toNat ≤ 122) ∨
  (48 ≤ c.toNat ∧ c.toNat ≤ 57) ∨
  c = '-' ∨ c = '_' ∨ c = '.' ∨ c = '!' ∨ c = '~' ∨ c = '*' ∨
  c = Char.ofNat 39 ∨ c = '(' ∨ c = ')'

/-- Uppercase hex digit for a value below 16. -/
def hexDigitChar (n : Nat) : Char :=
  if n < 10 then Char.ofNat (48 + n) else Char.ofNat (55 + n)

/-- Value of a hex digit character (either case), `none` otherwise. -/
def hexVal (c : Char) : Option Nat :=
  if 48 ≤ c.toNat ∧ c.toNat ≤ 57 then some (c.toNat - 48)
  else if 65 ≤ c.toNat ∧ c.toNat ≤ 70 then some (c.toNat - 55)
  else if 97 ≤ c.toNat ∧ c.toNat ≤ 102 then some (c.toNat - 87)
  else none

/-- UTF-8 encoding of a unicode scalar value, as a list of byte values. -/
def utf8Bytes (n : Nat) : List Nat :=
  if n < 128 then [n]
  else if n < 2048 then [192 + n / 64, 128 + n % 64]
  else if n < 65536 then [224 + n / 4096, 128 + n / 64 % 64, 128 + n % 64]
  else [240 + n / 262144, 128 + n / 4096 % 64, 128 + n / 64 % 64, 128 + n % 64]

/-- Percent-encoding of one byte: a `%` followed by two uppercase hex digits. -/
def pctByte (b : Nat) : JStr := ['%', hexDigitChar (b / 16), hexDigitChar (b % 16)]

/-- JS `encodeURIComponent`. -/
def uriEncode : JStr → JStr
  | [] => []
  | c :: cs =>
    (if isUnreservedUriChar c then [c] else (utf8Bytes c.toNat).flatMap pctByte)
      ++ uriEncode cs

/-- Intermediate token of the decoder: a literal character or a byte that
came from a `%XX` escape. -/
inductive PTok where
  | plain (c : Char)
  | byte (b : Nat)
deriving DecidableEq

/-- First pass of `decodeURIComponent`: replace every `%XX` escape by a
byte token; a `%` not followed by two hex digits is a `URIError`. -/
def pctTokenize : JStr → Option (List PTok)
  | [] => some []
  | c :: cs =>
    if c = '%' then
      match cs with
      | c1 :: c2 :: rest =>
        match hexVal c1, hexVal c2 with
        | some h1, some h2 => (pctTokenize rest).map (PTok.byte (16 * h1 + h2) :: ·)
        | _, _ => none
      | _ => none
    else (pctTokenize cs).map (PTok.plain c :: ·)

/-- Value of a UTF-8 continuation byte, `none` if the byte is not one. -/
def contVal (b : Nat) : Option Nat :=
  if 128 ≤ b ∧ b < 192 then some (b - 128) else none

/-- Is `n` a unicode scalar value (not a surrogate, below 0x110000)? -/
def isScalar (n : Nat) : Bool := n < 55296 ∨ (57344 ≤ n ∧ n < 1114112)

/-- Consume `k` UTF-8 continuation byte tokens, accumulating the partially
decoded code point. -/
def decodeCont : Nat → Nat → List PTok → Option (Nat × List PTok)
  | 0, acc, ts => some (acc, ts)
  | Nat.succ k, acc, ts =>
    match ts with
    | PTok.byte b :: ts2 =>
      match contVal b with
      | some v => decodeCont k (acc * 64 + v) ts2
      | none => none
    | _ => none

theorem decodeCont_length : ∀ (k acc : Nat) (ts : List PTok) (n : Nat) (ts2 : List PTok),
    decodeCont k acc ts = some (n, ts2) → ts2.length ≤ ts.length := by
  intro k
  induction k with
  | zero =>
    intro acc ts n ts2 h
    simp only [decodeCont, Option.some.injEq, Prod.mk.injEq] at h
    rw [← h.2]
  | succ k ih =>
    intro acc ts n ts2 h
    cases ts with
    | nil => simp [decodeCont] at h
    | cons t rest =>
      cases t with
      | plain c => simp [decodeCont] at h
      | byte b =>
        simp only [decodeCont] at h
        cases hcv : contVal b with
        | none => rw [hcv] at h; simp at h
        | some v =>
          rw [hcv] at h
          have := ih _ _ _ _ h
          simp only [List.length_cons]
          omega

/-- For a UTF-8 lead byte, the number of continuation bytes and the bits
contributed by the lead byte; `none` for an invalid lead byte. -/
def byteSeqLen (b : Nat) : Option (Nat × Nat) :=
  if b < 128 then some (0, b)
  else if b < 192 then none
  else if b < 224 then some (1, b - 192)
  else if b < 240 then some (2, b - 224)
  else if b < 248 then some (3, b - 240)
  else none

/-- Second pass of `decodeURIComponent` (fuel-driven so that the kernel
can evaluate it; `pctDetok` supplies sufficient fuel): group byte tokens
into UTF-8 sequences and decode them; literal characters pass through.
Sequences that are not valid UTF-8 for a scalar value are a `URIError`
(`none`). -/
def pctDetokF : Nat → List PTok → Option JStr
  | _, [] => some []
  | 0, _ :: _ => none
  | fuel + 1, PTok.plain c :: ts => (pctDetokF fuel ts).map (c :: ·)
  | fuel + 1, PTok.byte b :: ts =>
    match byteSeqLen b with
    | none => none
    | some (k, acc) =>
      match decodeCont k acc ts with
      | none => none
      | some (n, ts2) =>
        if isScalar n then (pctDetokF fuel ts2).map (Char.ofNat n :: ·) else none

/-- `pctDetokF` with the canonical (always sufficient) fuel. -/
def pctDetok (ts : List PTok) : Option JStr := pctDetokF ts.length ts

theorem pctDetokF_congr : ∀ (f1 : Nat) (ts : List PTok) (f2 : Nat),
    ts.length ≤ f1 → ts.length ≤ f2 → pctDetokF f1 ts = pctDetokF f2 ts := by
  intro f1
  induction f1 with
  | zero =>
    intro ts f2 h1 h2
    cases ts with
    | nil => cases f2 <;> rfl
    | cons t ts => simp at h1
  | succ f1 ih =>
    intro ts f2 h1 h2
    cases ts with
    | nil => cases f2 <;> rfl
    | cons t ts =>
      simp only [List.length_cons] at h1 h2
      cases f2 with
      | zero => omega
      | succ f2 =>
        cases t with
        | plain c =>
          simp only [pctDetokF]
          rw [ih ts f2 (by omega) (by omega)]
        | byte b =>
          simp only [pctDetokF]
          cases hb : byteSeqLen b with
          | none => rfl
          | some ka =>
            obtain ⟨k, acc⟩ := ka
            cases hd : decodeCont k acc ts with
            | none => simp only [hd]
            | some nts =>
              obtain ⟨n, ts2⟩ := nts
              have hlen := decodeCont_length _ _ _ _ _ hd
              simp only [hd]
              by_cases hs : isScalar n = true
              · simp only [hs, if_true]
                rw [ih ts2 f2 (by omega) (by omega)]
              · simp only [hs, Bool.false_eq_true, if_false]

/-- JS `decodeURIComponent`. -/
def uriDecode (s : JStr) : Option JStr := (pctTokenize s).bind pctDetok

/-- Token sequence produced by tokenizing an encoded string. -/
def encTokens : JStr → List PTok
  | [] => []
  | c :: cs =>
    (if isUnreservedUriChar c then [PTok.plain c] else (utf8Bytes c.toNat).map PTok.byte)
      ++ encTokens cs

theorem char_valid_bounds (c : Char) :
    c.toNat < 55296 ∨ (57344 ≤ c.toNat ∧ c.toNat < 1114112) := c.valid

theorem hexVal_hexDigitChar (x : Nat) (h : x < 16) : hexVal (hexDigitChar x) = some x := by
  interval_cases x <;> rfl

theorem pctTokenize_cons_plain (c : Char) (hc : c ≠ '%') (cs : JStr) :
    pctTokenize (c :: cs) = (pctTokenize cs).map (PTok.plain c :: ·) := by
  rw [pctTokenize.eq_def]
  simp [hc]

theorem pctTokenize_pctByte (b : Nat) (hb : b < 256) (rest : JStr) :
    pctTokenize (pctByte b ++ rest) = (pctTokenize rest).map (PTok.byte b :: ·) := by
  have h1 : b / 16 < 16 := by omega
  have h16 : 16 * (b / 16) + b % 16 = b := by omega
  show pctTokenize ('%' :: hexDigitChar (b / 16) :: hexDigitChar (b % 16) :: rest) = _
  rw [pctTokenize.eq_def]
  simp only [if_pos rfl, if_true, hexVal_hexDigitChar _ h1,
    hexVal_hexDigitChar _ (Nat.mod_lt b (by omega)), h16]

theorem unreserved_ne_pct {c : Char} (h : isUnreservedUriChar c = true) : c ≠ '%' := by
  intro hc
  subst hc
  revert h
  decide

theorem utf8Bytes_lt_256 (c : Char) : ∀ b ∈ utf8Bytes c.toNat, b < 256 := by
  intro b hbm
  have hlt : c.toNat < 1114112 := by
    rcases char_valid_bounds c with h | ⟨h1, h2⟩ <;> omega
  simp only [utf8Bytes] at hbm
  split at hbm
  · simp only [List.mem_singleton] at hbm; omega
  · split at hbm
    · simp only [List.mem_cons, List.not_mem_nil, or_false] at hbm
      rcases hbm with h | h <;> omega
    · split at hbm
      · simp only [List.mem_cons, List.not_mem_nil, or_false] at hbm
        rcases hbm with h | h | h <;> omega
      · simp only [List.mem_cons, List.not_mem_nil, or_false] at hbm
        rcases hbm with h | h | h | h <;> omega

theorem pctTokenize_flatMap_pctByte (bs : List Nat) (hb : ∀ b ∈ bs, b < 256) (rest : JStr) :
    pctTokenize (bs.flatMap pctByte ++ rest)
      = (pctTokenize rest).map (bs.map PTok.byte ++ ·) := by
  induction bs with
  | nil => simp
  | cons b bs ih =>
    simp only [List.flatMap_cons, List.append_assoc]
    rw [pctTokenize_pctByte b (hb b (by simp)), ih (fun x hx => hb x (by simp [hx]))]
    cases pctTokenize rest <;> simp

theorem pctTokenize_uriEncode (s : JStr) : pctTokenize (uriEncode s) = some (encTokens s) := by
  induction s with
  | nil => rfl
  | cons c cs ih =>
    by_cases hc : isUnreservedUriChar c = true
    · simp only [uriEncode, encTokens, hc, if_true, List.singleton_append]
      rw [pctTokenize_cons_plain c (unreserved_ne_pct hc), ih]
      rfl
    · simp only [uriEncode, encTokens, hc, Bool.false_eq_true, if_false]
      rw [pctTokenize_flatMap_pctByte _ (utf8Bytes_lt_256 c), ih]
      rfl

theorem contVal_cont (v : Nat) (hv : v < 64) : contVal (128 + v) = some v := by
  simp only [contVal, if_pos (by omega : 128 ≤ 128 + v ∧ 128 + v < 192), Option.some.injEq]
  omega

theorem pctDetok_cons_plain (c : Char) (ts : List PTok) :
    pctDetok (PTok.plain c :: ts) = (pctDetok ts).map (c :: ·) := by
  show pctDetokF (ts.length + 1) (PTok.plain c :: ts) = _
  simp only [pctDetokF]
  rfl

theorem pctDetok_cons_byte (b k acc n : Nat) (ts ts2 : List PTok)
    (hb : byteSeqLen b = some (k, acc)) (hd : decodeCont k acc ts = some (n, ts2))
    (hs : isScalar n = true) :
    pctDetok (PTok.byte b :: ts) = (pctDetok ts2).map (Char.ofNat n :: ·) := by
  have hlen := decodeCont_length _ _ _ _ _ hd
  show pctDetokF (ts.length + 1) (PTok.byte b :: ts) = _
  simp only [pctDetokF, hb, hd, hs, if_true]
  rw [pctDetokF_congr ts.length ts2 ts2.length (by omega) (le_refl _)]
  rfl

theorem pctDetok_utf8 (c : Char) (ts : List PTok) :
    pctDetok ((utf8Bytes c.toNat).map PTok.byte ++ ts)
      = (pctDetok ts).map (c :: ·) := by
  have hval := char_valid_bounds c
  have hofn : Char.ofNat c.toNat = c := Char.ofNat_toNat c
  have hsc : isScalar c.toNat = true := by
    simp only [isScalar, decide_eq_true_eq]
    rcases hval with h | ⟨h1, h2⟩
    · left; omega
    · right; omega
  by_cases ha : c.toNat < 128
  · simp only [utf8Bytes, if_pos ha, List.map_cons, List.map_nil, List.cons_append,
      List.nil_append]
    rw [pctDetok_cons_byte c.toNat 0 c.toNat c.toNat ts ts
      (by simp only [byteSeqLen, if_pos ha]) rfl hsc, hofn]
  · by_cases hb : c.toNat < 2048
    · simp only [utf8Bytes, if_neg ha, if_pos hb, List.map_cons, List.map_nil,
        List.cons_append, List.nil_append]
      have hlead : byteSeqLen (192 + c.toNat / 64) = some (1, c.toNat / 64) := by
        simp only [byteSeqLen, if_neg (by omega : ¬192 + c.toNat / 64 < 128),
          if_neg (by omega : ¬192 + c.toNat / 64 < 192),
          if_pos (by omega : 192 + c.toNat / 64 < 224), Option.some.injEq, Prod.mk.injEq,
          true_and]
        omega
      have hdec : decodeCont 1 (c.toNat / 64) (PTok.byte (128 + c.toNat % 64) :: ts)
          = some (c.toNat, ts) := by
        simp only [decodeCont, contVal_cont _ (by omega : c.toNat % 64 < 64),
          Option.some.injEq, Prod.mk.injEq, and_true]
        omega
      rw [pctDetok_cons_byte _ _ _ _ _ _ hlead hdec hsc, hofn]
    · by_cases hc16 : c.toNat < 65536
      · simp only [utf8Bytes, if_neg ha, if_neg hb, if_pos hc16, List.map_cons, List.map_nil,
          List.cons_append, List.nil_append]
        have hlead : byteSeqLen (224 + c.toNat / 4096) = some (2, c.toNat / 4096) := by
          simp only [byteSeqLen, if_neg (by omega : ¬224 + c.toNat / 4096 < 128),
            if_neg (by omega : ¬224 + c.toNat / 4096 < 192),
            if_neg (by omega : ¬224 + c.toNat / 4096 < 224),
            if_pos (by omega : 224 + c.toNat / 4096 < 240), Option.some.injEq, Prod.mk.injEq,
            true_and]
          omega
        have hdec : decodeCont 2 (c.toNat / 4096)
            (PTok.byte (128 + c.toNat / 64 % 64) :: PTok.byte (128 + c.toNat % 64) :: ts)
            = some (c.toNat, ts) := by
          simp only [decodeCont, contVal_cont _ (by omega : c.toNat / 64 % 64 < 64),
            contVal_cont _ (by omega : c.toNat % 64 < 64), Option.some.injEq, Prod.mk.injEq,
            and_true]
          omega
        rw [pctDetok_cons_byte _ _ _ _ _ _ hlead hdec hsc, hofn]
      · have hmax : c.toNat < 1114112 := by
          rcases hval with h | ⟨h1, h2⟩ <;> omega
        simp only [utf8Bytes, if_neg ha, if_neg hb, if_neg hc16, List.map_cons, List.map_nil,
          List.cons_append, List.nil_append]
        have hlead : byteSeqLen (240 + c.toNat / 262144) = some (3, c.toNat / 262144) := by
          simp only [byteSeqLen, if_neg (by omega : ¬240 + c.toNat / 262144 < 128),
            if_neg (by omega : ¬240 + c.toNat / 262144 < 192),
            if_neg (by omega : ¬240 + c.toNat / 262144 < 224),
            if_neg (by omega : ¬240 + c.toNat / 262144 < 240),
            if_pos (by omega : 240 + c.toNat / 262144 < 248), Option.some.injEq, Prod.mk.injEq,
            true_and]
          omega
        have hdec : decodeCont 3 (c.toNat / 262144)
            (PTok.byte (128 + c.toNat / 4096 % 64) :: PTok.byte (128 + c.toNat / 64 % 64)
              :: PTok.byte (128 + c.toNat % 64) :: ts)
            = some (c.toNat, ts) := by
          simp only [decodeCont, contVal_cont _ (by omega : c.toNat / 4096 % 64 < 64),
            contVal_cont _ (by omega : c.toNat / 64 % 64 < 64),
            contVal_cont _ (by omega : c.toNat % 64 < 64), Option.some.injEq, Prod.mk.injEq,
            and_true]
          omega
        rw [pctDetok_cons_byte _ _ _ _ _ _ hlead hdec hsc, hofn]

theorem pctDetok_encTokens (s : JStr) : pctDetok (encTokens s) = some s := by
  induction s with
  | nil => rfl
  | cons c cs ih =>
    by_cases hc : isUnreservedUriChar c = true
    · simp only [encTokens, hc, if_true, List.singleton_append]
      rw [pctDetok_cons_plain, ih]
      rfl
    · simp only [encTokens, hc, Bool.false_eq_true, if_false]
      rw [pctDetok_utf8, ih]
      rfl

/-- `decodeURIComponent (encodeURIComponent s) = s` for every string. -/
theorem uriDecode_uriEncode (s : JStr) : uriDecode (uriEncode s) = some s := by
  show (pctTokenize (uriEncode s)).bind pctDetok = some s
  rw [pctTokenize_uriEncode]
  show pctDetok (encTokens s) = some s
  exact pctDetok_encTokens s

/-! ## Correlation codec

Encoding: `prepareBatchDataRange` (final variant, src/SheetAI.js:6562)
builds the batch request `custom_id` as the template string
`row-${rowIndex+1}-prompt-${p+1}-${encodeURIComponent(promptName)}`.

Decoding: `processOutputFile` (final variant, src/SheetAI.js:6932–6950)
splits the id on `-`, validates token count ≥ 5 and the literal tokens
`row` / `prompt`, `parseInt`s the row and prompt numbers, and
percent-decodes the rejoined trailing segments as the prompt name. -/

/-- The `custom_id` built at src/SheetAI.js:6562 (with `rowNumber` standing
for `rowIndex+1` and `promptNumber` for `p+1` at the call site). -/
def encodeCorrelationId (rowNumber promptNumber : Nat) (promptName : JStr) : JStr :=
  str "row" ++ '-' :: natToDigits rowNumber ++ '-' :: str "prompt"
    ++ '-' :: natToDigits promptNumber ++ '-' :: uriEncode promptName

/-- Outcome of the decode steps of src/SheetAI.js:6932–6950, keeping the
source's distinct failure exits: `invalidFormat` (bad token count or
literals, line 6933), `nanIndex` (`isNaN` row/prompt, line 6946), and
`uriError` (`decodeURIComponent` raised, caught by the enclosing
try/catch at line 7032). -/
inductive DecodeOutcome where
  | invalidFormat
  | nanIndex
  | uriError
  | ok (rowNumber promptIndex : Int) (promptName : JStr)
deriving DecidableEq

/-- Decode of a `custom_id`, mirroring src/SheetAI.js:6932–6950. -/
def decodeCorrelationIdE (customId : JStr) : DecodeOutcome :=
  let parts := splitOnDash customId
  if parts.length < 5 ∨ parts.getD 0 [] ≠ str "row" ∨ parts.getD 2 [] ≠ str "prompt" then
    DecodeOutcome.invalidFormat
  else
    let rowNumber := jsParseInt (parts.getD 1 [])
    let promptIndex := jsParseInt (parts.getD 3 [])
    match uriDecode (joinDash (parts.drop 4)) with
    | none => DecodeOutcome.uriError
    | some promptName =>
      match rowNumber, promptIndex with
      | some r, some pi => DecodeOutcome.ok r pi promptName
      | _, _ => DecodeOutcome.nanIndex

/-- Decode as a partial function (`none` for any of the failure exits). -/
def decodeCorrelationId (customId : JStr) : Option (Int × Int × JStr) :=
  match decodeCorrelationIdE customId with
  | DecodeOutcome.ok r pi name => some (r, pi, name)
  | _ => none

theorem natToDigits_no_dash (n : Nat) : '-' ∉ natToDigits n := by
  intro h
  have := natToDigits_all_digits n _ h
  revert this
  decide

theorem splitOnDash_encodeCorrelationId (o p : Nat) (n : JStr) :
    splitOnDash (encodeCorrelationId o p n)
      = str "row" :: natToDigits o :: str "prompt" :: natToDigits p
          :: splitOnDash (uriEncode n) := by
  unfold encodeCorrelationId
  simp only [List.append_assoc, List.cons_append]
  rw [splitOnDash_append_of_noDash (str "row") _ (by decide)]
  rw [splitOnDash_append_of_noDash (natToDigits o) _ (natToDigits_no_dash o)]
  rw [splitOnDash_append_of_noDash (str "prompt") _ (by decide)]
  rw [splitOnDash_append_of_noDash (natToDigits p) _ (natToDigits_no_dash p)]

/-- Claim C1 — correlation codec round-trip: for all row and prompt
ordinals `o`, `p` and every prompt name `n` (names containing the
delimiter `-` included), decoding the `custom_id` produced by the encoder
recovers exactly `(o, p, n)`: the decoder validates the `row` / `prompt`
tokens, parses both ordinals, and percent-decodes the rejoined trailing
segments back to `n`. -/
theorem correlation_decode_encode (o p : Nat) (n : JStr) :
    decodeCorrelationIdE (encodeCorrelationId o p n)
      = DecodeOutcome.ok (o : Int) (p : Int) n := by
  have hsplit := splitOnDash_encodeCorrelationId o p n
  have hpos : 0 < (splitOnDash (uriEncode n)).length :=
    List.length_pos.2 (splitOnDash_ne_nil _)
  unfold decodeCorrelationIdE
  rw [hsplit]
  rw [if_neg]
  · have hdrop : (str "row" :: natToDigits o :: str "prompt" :: natToDigits p
        :: splitOnDash (uriEncode n)).drop 4 = splitOnDash (uriEncode n) := rfl
    rw [hdrop, joinDash_splitOnDash, uriDecode_uriEncode]
    have h1 : (str "row" :: natToDigits o :: str "prompt" :: natToDigits p
        :: splitOnDash (uriEncode n)).getD 1 [] = natToDigits o := rfl
    have h3 : (str "row" :: natToDigits o :: str "prompt" :: natToDigits p
        :: splitOnDash (uriEncode n)).getD 3 [] = natToDigits p := rfl
    rw [h1, h3, jsParseInt_natToDigits, jsParseInt_natToDigits]
    simp
  · push_neg
    refine ⟨?_, by simp [List.getD], by simp [List.getD]⟩
    simp only [List.length_cons]
    omega

/-! ## Sheet cells

A spreadsheet cell value as returned by `getValues()`: a number, a string,
a boolean, or blank.  `blank` stands for the empty cell (JS `''`) and for
an out-of-range access (JS `undefined`); the two agree on every predicate
used by the embedded functions (both are falsy, and neither satisfies
`> 0`). -/

inductive Cell where
  | num (q : Rat)
  | str (s : JStr)
  | bool (b : Bool)
  | blank
deriving DecidableEq, Repr

/-- JS truthiness of a cell value. -/
def Cell.truthy : Cell → Bool
  | Cell.num q => q ≠ 0
  | Cell.str s => s ≠ []
  | Cell.bool b => b
  | Cell.blank => false

/-- JS `Number(string)` restricted to optionally signed decimal-integer
strings (and the empty string, which converts to 0); other string shapes
(fractional, exponent, hex) are not produced by the embedded functions and
are modelled as `NaN` (`none`). -/
def simpleStrToNumber (s : JStr) : Option Rat :=
  let t := jsTrim s
  if t = [] then some 0
  else
    let signAndRest : Rat × JStr :=
      match t with
      | c :: rest => if c = '-' then (-1, rest) else if c = '+' then (1, rest) else (1, t)
      | [] => (1, [])
    if signAndRest.2 ≠ [] ∧ signAndRest.2.all isDigitChar then
      some (signAndRest.1 * (digitsVal signAndRest.2 : Rat))
    else none

/-- JS `ToNumber` for a cell value; `none` models `NaN`. -/
def cellToNumber : Cell → Option Rat
  | Cell.num q => some q
  | Cell.str s => simpleStrToNumber s
  | Cell.bool b => some (if b then 1 else 0)
  | Cell.blank => some 0

/-- The JS comparison `cell > 0` (numeric coercion; false on `NaN`). -/
def Cell.gtZero (c : Cell) : Bool :=
  match cellToNumber c with
  | some q => 0 < q
  | none => false

/-- Indexing a row of cells: out-of-range gives `blank` (JS `undefined`,
which agrees with `blank` on every predicate used below). -/
def getCell (row : List Cell) (i : Nat) : Cell := row.getD i Cell.blank

/-- JS `Array.prototype.indexOf` (strict equality), as an `Option`:
`none` for the JS result `-1`. -/
def jsIndexOf : List Cell → Cell → Option Nat
  | [], _ => none
  | c :: cs, x => if c = x then some 0 else (jsIndexOf cs x).map (· + 1)

/-! ## findNextBatchRows (final variant, src/SheetAI.js:6414–6479)

`findNextBatchRows(maxRows, batchSize)` reads the Data sheet as
`dataRange` (header row at index 0, `lastRow` rows in total), locates the
`Status` column (appending one — locally treated as all zeros — if
missing), scans for the first data row whose status is falsy or `=== 0`,
takes the contiguous block `startRow .. min(startRow+batchSize-1, lastRow)`,
and counts the rows with falsy/zero status strictly beyond `endRow`.
The `maxRows` parameter is accepted and never used, as in the source.
The side effect of materialising a missing `Status` header cell is not
modelled; it does not affect the returned triple. -/

structure NextBatchInfo where
  startRow : Nat
  endRow : Nat
  remainingRows : Nat
deriving DecidableEq, Repr

/-- The eligibility test of src/SheetAI.js:6448 and :6469:
`!dataRange[i][statusColIndex] || dataRange[i][statusColIndex] === 0`. -/
def rowStatusUnset (row : List Cell) (statusCol : Nat) : Bool :=
  ¬(getCell row statusCol).truthy ∨ getCell row statusCol = Cell.num 0

/-- The `Status` column index used by `findNextBatchRows`:
`headers.indexOf("Status")`, or `headers.length` when the column is
missing and appended. -/
def statusColOf (grid : List (List Cell)) : Nat :=
  (jsIndexOf (grid.headD []) (Cell.str (str "Status"))).getD (grid.headD []).length

/-- The scan loop of src/SheetAI.js:6447–6452, carrying the 0-based data
index `i`; returns the index of the first row with unset status. -/
def scanFirstUnset (statusCol : Nat) : List (List Cell) → Nat → Option Nat
  | [], _ => none
  | r :: rest, i =>
    if rowStatusUnset r statusCol then some i else scanFirstUnset statusCol rest (i + 1)

/-- `findNextBatchRows` (final variant, src/SheetAI.js:6414–6479).
`startRow = i + 1` converts the 0-based data index to a 1-based sheet row;
`endRow = min(startRow + batchSize - 1, lastRow)`; `remainingRows` counts
unset rows from index `endRow` on. -/
def findNextBatchRows (grid : List (List Cell)) (maxRows batchSize : Nat) :
    Option NextBatchInfo :=
  if grid.length ≤ 1 then none
  else
    match scanFirstUnset (statusColOf grid) (grid.drop 1) 1 with
    | none => some ⟨0, 0, 0⟩
    | some i =>
      some ⟨i + 1, min (i + 1 + batchSize - 1) grid.length,
        (grid.drop (min (i + 1 + batchSize - 1) grid.length)).countP
          (fun r => rowStatusUnset r (statusColOf grid))⟩

theorem getD_drop {α : Type} (l : List α) (n m : Nat) (d : α) :
    (l.drop n).getD m d = l.getD (n + m) d := by
  simp [List.getD_eq_getElem?_getD, List.getElem?_drop]

theorem scanFirstUnset_some (statusCol : Nat) :
    ∀ (rows : List (List Cell)) (k i : Nat),
      scanFirstUnset statusCol rows k = some i →
      k ≤ i ∧ i - k < rows.length ∧
      rowStatusUnset (rows.getD (i - k) []) statusCol = true ∧
      ∀ j, j < i - k → rowStatusUnset (rows.getD j []) statusCol = false := by
  intro rows
  induction rows with
  | nil => intro k i h; simp [scanFirstUnset] at h
  | cons r rest ih =>
    intro k i h
    simp only [scanFirstUnset] at h
    by_cases hr : rowStatusUnset r statusCol = true
    · rw [if_pos hr] at h
      injection h with h
      subst h
      refine ⟨le_refl _, by simp, by simpa using hr, ?_⟩
      intro j hj
      omega
    · rw [if_neg hr] at h
      obtain ⟨h1, h2, h3, h4⟩ := ih (k + 1) i h
      refine ⟨by omega, by simp; omega, ?_, ?_⟩
      · have : i - k = (i - (k + 1)) + 1 := by omega
        rw [this]
        simpa using h3
      · intro j hj
        cases j with
        | zero => simpa using eq_false_of_ne_true hr
        | succ j2 =>
          have : j2 < i - (k + 1) := by omega
          simpa using h4 j2 this

theorem scanFirstUnset_none (statusCol : Nat) :
    ∀ (rows : List (List Cell)) (k : Nat),
      scanFirstUnset statusCol rows k = none →
      ∀ r ∈ rows, rowStatusUnset r statusCol = false := by
  intro rows
  induction rows with
  | nil => intro k h r hr; simp at hr
  | cons r rest ih =>
    intro k h r2 hr2
    simp only [scanFirstUnset] at h
    by_cases hr : rowStatusUnset r statusCol = true
    · rw [if_pos hr] at h; exact absurd h (by simp)
    · rw [if_neg hr] at h
      rcases List.mem_cons.1 hr2 with h2 | h2
      · subst h2; exact eq_false_of_ne_true hr
      · exact ih (k + 1) h r2 h2

/-- Counterexample to claim C7 as stated: on a sheet whose first data row
has status 0 but a non-empty `Batch ID` cell, `findNextBatchRows` starts
the range at that row anyway (it inspects only the `Status` column), while
the claim requires the start row to have *no assigned batch correlation*
(which would be sheet row 3 here). -/
theorem findNextBatchRows_counterexample :
    findNextBatchRows
        [[Cell.str (str "Status"), Cell.str (str "Batch ID")],
         [Cell.num 0, Cell.str (str "b")],
         [Cell.blank, Cell.blank]] 10 1
      = some ⟨2, 2, 1⟩
    ∧ (getCell [Cell.num 0, Cell.str (str "b")] 1).truthy = true := by
  constructor
  · rfl
  · rfl

/-- Claim C7, amended to the code: `findNextBatchRows` scans data rows in
order and starts at the first row whose `Status` is falsy or zero —
regardless of the `Batch ID` column; the selected range is the contiguous
block of `batchSize` rows from there (clamped to the last data row),
counting ineligible rows inside the block against the limit; and
`remainingRows` counts the rows with falsy/zero status strictly beyond the
selected range. -/
theorem findNextBatchRows_spec (grid : List (List Cell)) (maxRows batchSize : Nat)
    (info : NextBatchInfo) (hsome : findNextBatchRows grid maxRows batchSize = some info)
    (hnz : info.startRow ≠ 0) :
    2 ≤ info.startRow ∧ info.startRow ≤ grid.length ∧
    rowStatusUnset (grid.getD (info.startRow - 1) []) (statusColOf grid) = true ∧
    (∀ j, 1 ≤ j → j < info.startRow - 1 →
      rowStatusUnset (grid.getD j []) (statusColOf grid) = false) ∧
    info.endRow = min (info.startRow + batchSize - 1) grid.length ∧
    info.remainingRows
      = (grid.drop info.endRow).countP (fun r => rowStatusUnset r (statusColOf grid)) := by
  unfold findNextBatchRows at hsome
  by_cases hg : grid.length ≤ 1
  · rw [if_pos hg] at hsome; exact absurd hsome (by simp)
  · rw [if_neg hg] at hsome
    cases hscan : scanFirstUnset (statusColOf grid) (grid.drop 1) 1 with
    | none =>
      rw [hscan] at hsome
      injection hsome with hsome
      subst hsome
      exact absurd rfl hnz
    | some i =>
      rw [hscan] at hsome
      injection hsome with hsome
      subst hsome
      obtain ⟨h1, h2, h3, h4⟩ := scanFirstUnset_some _ _ _ _ hscan
      simp only [List.length_drop] at h2
      rw [getD_drop] at h3
      refine ⟨?_, ?_, ?_, ?_, ?_, ?_⟩
      · show 2 ≤ i + 1
        omega
      · show i + 1 ≤ grid.length
        omega
      · show rowStatusUnset (grid.getD (i + 1 - 1) []) (statusColOf grid) = true
        have he : i + 1 - 1 = 1 + (i - 1) := by omega
        rw [he]
        exact h3
      · show ∀ j, 1 ≤ j → j < i + 1 - 1 →
          rowStatusUnset (grid.getD j []) (statusColOf grid) = false
        intro j hj1 hj2
        have hthis := h4 (j - 1) (by omega)
        rw [getD_drop] at hthis
        have hje : 1 + (j - 1) = j := by omega
        rw [hje] at hthis
        exact hthis
      · rfl
      · rfl

/-- A concrete four-row sheet used by the C7 witness. -/
def c7grid : List (List Cell) :=
  [[Cell.str (str "Status")], [Cell.num 1], [Cell.blank], [Cell.blank]]

/-- Witness for the amended C7 theorem at a concrete sheet. -/
theorem findNextBatchRows_spec_witness :
    (findNextBatchRows c7grid 10 2 = some ⟨3, 4, 0⟩)
    ∧ ((3 : Nat) ≠ 0)
    ∧ (2 ≤ (3 : Nat) ∧ (3 : Nat) ≤ c7grid.length ∧
       rowStatusUnset (c7grid.getD 2 []) (statusColOf c7grid) = true ∧
       (∀ j, 1 ≤ j → j < 2 →
         rowStatusUnset (c7grid.getD j []) (statusColOf c7grid) = false) ∧
       (4 : Nat) = min (3 + 2 - 1) c7grid.length ∧
       (0 : Nat) = (c7grid.drop 4).countP
         (fun r => rowStatusUnset r (statusColOf c7grid))) :=
  ⟨by decide, by decide,
    findNextBatchRows_spec c7grid 10 2 ⟨3, 4, 0⟩ (by decide) (by decide)⟩

/-! ## replacePlaceholders (final variant, src/SheetAI.js:6330–6338)

```
function replacePlaceholders(prompt, headers, rowData) {
  var finalPrompt = prompt;
  for (var colIndex = 0; colIndex < headers.length; colIndex++) {
    var placeholder = "\x7b\x7b" + headers[colIndex].trim() + "\x7d\x7d";
    var value = rowData[colIndex] !== undefined ? rowData[colIndex] : "N/A";
    finalPrompt = finalPrompt.replace(new RegExp(placeholder, "g"), value);
  }
  return finalPrompt;
}
```

Modelling notes: the source compiles the placeholder text into a RegExp;
the embedding models the global replace as a literal-string
left-to-right, non-overlapping replacement, which coincides with the
RegExp behaviour whenever the header text contains no regex
metacharacters (all headers in the claims are plain words).  The special
`$`-sequences of JS replacement strings are likewise not modelled (no
value below contains `$`).  A single `replace` call never rescans the
text it has just substituted — but later loop iterations run on the
accumulated result, which is what claim C9 is about. -/

/-- The two brace characters (codepoints 123 and 125). -/
def braceL : Char := Char.ofNat 123

def braceR : Char := Char.ofNat 125

/-- JS `String(cell)` for the cell shapes the claims exercise.  JS renders
non-integral doubles in shortest-decimal form, which is not reproduced
here (no embedded call renders a non-integral number); integers render as
their usual decimal form. -/
def intToJsDigits (i : Int) : JStr :=
  if i < 0 then '-' :: natToDigits i.natAbs else natToDigits i.natAbs

def ratToJsString (q : Rat) : JStr :=
  if q.den = 1 then intToJsDigits q.num
  else intToJsDigits q.num ++ '/' :: natToDigits q.den

def cellToJsString : Cell → JStr
  | Cell.num q => ratToJsString q
  | Cell.str s => s
  | Cell.bool b => if b then str "true" else str "false"
  | Cell.blank => []

/-- `headers[colIndex].trim()`; a non-string header cell would make the
source throw a `TypeError` (all headers in the claims are strings). -/
def cellTrimText : Cell → JStr
  | Cell.str s => jsTrim s
  | c => cellToJsString c

/-- The placeholder text built at src/SheetAI.js:6333. -/
def placeholderOf (h : Cell) : JStr :=
  braceL :: braceL :: cellTrimText h ++ [braceR, braceR]

/-- Fuel-driven global literal replacement (JS
`s.replace(new RegExp(pat, "g"), rep)` for metacharacter-free `pat`):
left-to-right, non-overlapping, no rescan of substituted text.
`replaceAll` supplies sufficient fuel. -/
def replaceAllF (pat rep : JStr) : Nat → JStr → JStr
  | _, [] => []
  | 0, s => s
  | fuel + 1, c :: cs =>
    if pat ≠ [] ∧ pat.isPrefixOf (c :: cs) then
      rep ++ replaceAllF pat rep fuel ((c :: cs).drop pat.length)
    else c :: replaceAllF pat rep fuel cs

def replaceAll (pat rep s : JStr) : JStr := replaceAllF pat rep s.length s

/-- Does `pat` occur as a contiguous substring of `s`? -/
def occursIn (pat : JStr) : JStr → Bool
  | [] => pat.isPrefixOf []
  | c :: cs => pat.isPrefixOf (c :: cs) || occursIn pat cs

/-- `rowData[colIndex] !== undefined ? rowData[colIndex] : "N/A"` coerced
to display text (src/SheetAI.js:6334). -/
def valueAt (rowData : List Cell) (colIndex : Nat) : JStr :=
  match rowData[colIndex]? with
  | some cell => cellToJsString cell
  | none => str "N/A"

/-- The loop of src/SheetAI.js:6332–6336, one iteration per header. -/
def replacePlaceholdersAux (rowData : List Cell) :
    JStr → List Cell → Nat → JStr
  | acc, [], _ => acc
  | acc, h :: hs, colIndex =>
    replacePlaceholdersAux rowData
      (replaceAll (placeholderOf h) (valueAt rowData colIndex) acc) hs (colIndex + 1)

/-- `replacePlaceholders` (final variant, src/SheetAI.js:6330–6338). -/
def replacePlaceholders (prompt : JStr) (headers rowData : List Cell) : JStr :=
  replacePlaceholdersAux rowData prompt headers 0

theorem replaceAllF_congr (pat rep : JStr) : ∀ (f1 : Nat) (s : JStr) (f2 : Nat),
    s.length ≤ f1 → s.length ≤ f2 → replaceAllF pat rep f1 s = replaceAllF pat rep f2 s := by
  intro f1
  induction f1 with
  | zero =>
    intro s f2 h1 h2
    cases s with
    | nil => cases f2 <;> rfl
    | cons c cs => simp at h1
  | succ f1 ih =>
    intro s f2 h1 h2
    cases s with
    | nil => cases f2 <;> rfl
    | cons c cs =>
      simp only [List.length_cons] at h1 h2
      cases f2 with
      | zero => omega
      | succ f2 =>
        simp only [replaceAllF]
        by_cases hp : pat ≠ [] ∧ pat.isPrefixOf (c :: cs)
        · rw [if_pos hp, if_pos hp]
          have hplen : 1 ≤ pat.length := by
            have := hp.1
            cases hpat : pat with
            | nil => exact absurd hpat this
            | cons p ps => simp
          rw [ih ((c :: cs).drop pat.length) f2 (by simp; omega) (by simp; omega)]
        · rw [if_neg hp, if_neg hp, ih cs f2 (by omega) (by omega)]

theorem replaceAll_not_occurs (pat rep : JStr) :
    ∀ (s : JStr), occursIn pat s = false → replaceAll pat rep s = s := by
  have key : ∀ (f : Nat) (s : JStr), s.length ≤ f → occursIn pat s = false →
      replaceAllF pat rep f s = s := by
    intro f
    induction f with
    | zero =>
      intro s h1 h2
      cases s with
      | nil => rfl
      | cons c cs => simp at h1
    | succ f ih =>
      intro s h1 h2
      cases s with
      | nil => rfl
      | cons c cs =>
        simp only [occursIn, Bool.or_eq_false_iff] at h2
        simp only [List.length_cons] at h1
        simp only [replaceAllF]
        rw [if_neg (by simp [h2.1]), ih cs (by omega) h2.2]
  intro s h
  exact key s.length s (le_refl _) h

theorem replaceAll_self (pat rep : JStr) (hp : pat ≠ []) :
    replaceAll pat rep pat = rep := by
  cases hpat : pat with
  | nil => exact absurd hpat hp
  | cons p ps =>
    show replaceAllF (p :: ps) rep (ps.length + 1) (p :: ps) = rep
    simp only [replaceAllF]
    rw [if_pos ⟨by simp, List.isPrefixOf_iff_prefix.2 (List.prefix_refl _)⟩]
    have hdrop : (p :: ps).drop (p :: ps).length = [] := List.drop_length _
    rw [hdrop]
    have : replaceAllF (p :: ps) rep ps.length [] = [] := by
      cases ps.length <;> rfl
    rw [this, List.append_nil]

/-- The claim-C9 counterexample placeholder strings. -/
def phA : JStr := braceL :: braceL :: str "a" ++ [braceR, braceR]

def phB : JStr := braceL :: braceL :: str "b" ++ [braceR, braceR]

/-- Counterexample to claim C9 as stated: rendering the one-placeholder
template for field `a`, whose value is the placeholder-shaped text for
field `b`, expands that substituted text in the same render call (the
later loop iteration for `b` replaces inside the accumulated result),
yielding `X` instead of the literal text the claim requires. -/
theorem replacePlaceholders_counterexample :
    replacePlaceholders phA
        [Cell.str (str "a"), Cell.str (str "b")]
        [Cell.str phB, Cell.str (str "X")]
      = str "X"
    ∧ str "X" ≠ phB := by
  constructor
  · rfl
  · decide

/-- Claim C9, amended to the code: substitution runs one global replace
per field, in header order, over the accumulated text.  Consequently
(a) a template containing no field's placeholder is returned unchanged
(unmatched placeholders stay literal), and (b) substitution is not
single-pass: a substituted value that is itself a later field's
placeholder is expanded by the same render call — for every value `v` of
field `b`, rendering the template consisting of field `a`'s placeholder,
where `a`'s value is the placeholder of `b`, yields `v` itself. -/
theorem replacePlaceholders_spec :
    (∀ (prompt : JStr) (headers rowData : List Cell),
      (∀ h ∈ headers, occursIn (placeholderOf h) prompt = false) →
      replacePlaceholders prompt headers rowData = prompt)
    ∧ (∀ v : JStr,
      replacePlaceholders phA
          [Cell.str (str "a"), Cell.str (str "b")]
          [Cell.str phB, Cell.str v]
        = v) := by
  constructor
  · have key : ∀ (headers : List Cell) (rowData : List Cell) (prompt : JStr) (colIndex : Nat),
        (∀ h ∈ headers, occursIn (placeholderOf h) prompt = false) →
        replacePlaceholdersAux rowData prompt headers colIndex = prompt := by
      intro headers
      induction headers with
      | nil => intro rowData prompt colIndex hocc; rfl
      | cons h hs ih =>
        intro rowData prompt colIndex hocc
        simp only [replacePlaceholdersAux]
        rw [replaceAll_not_occurs _ _ _ (hocc h (by simp))]
        exact ih rowData prompt (colIndex + 1) (fun h2 hm => hocc h2 (by simp [hm]))
    intro prompt headers rowData hocc
    exact key headers rowData prompt 0 hocc
  · intro v
    show replacePlaceholdersAux _ _ _ 0 = v
    simp only [replacePlaceholdersAux]
    have e1 : placeholderOf (Cell.str (str "a")) = phA := by decide
    have e2 : placeholderOf (Cell.str (str "b")) = phB := by decide
    have e3 : valueAt [Cell.str phB, Cell.str v] 0 = phB := rfl
    have e4 : valueAt [Cell.str phB, Cell.str v] 1 = v := rfl
    rw [e1, e2, e3, e4, replaceAll_self _ _ (by decide),
      replaceAll_self _ _ (by decide)]

/-- Witness for the amended C9 theorem at concrete inputs. -/
theorem replacePlaceholders_spec_witness :
    ((∀ h ∈ [Cell.str (str "name")], occursIn (placeholderOf h) (str "hello") = false)
      ∧ replacePlaceholders (str "hello") [Cell.str (str "name")] [Cell.str (str "v")]
          = str "hello")
    ∧ replacePlaceholders phA
        [Cell.str (str "a"), Cell.str (str "b")]
        [Cell.str phB, Cell.str (str "Y")]
        = str "Y" :=
  ⟨⟨by decide, replacePlaceholders_spec.1 (str "hello") [Cell.str (str "name")]
      [Cell.str (str "v")] (by decide)⟩,
    replacePlaceholders_spec.2 (str "Y")⟩

/-! ## prepareBatchDataRange (final variant, src/SheetAI.js:6484–6590)

Builds, for every non-skipped row of the selected range and every active
prompt, one batch request whose `custom_id` is the correlation id.  A row
is skipped (src:6543–6546) when its index is beyond the data, its
`Status` cell is `> 0`, or its `Batch ID` cell is truthy.  The active
prompts are rows of the Prompts sheet: column 0 the name, column 1 the
template text, column 2 the optional model. -/

/-- One request of the batch document (src/SheetAI.js:6565–6580).  The
constant envelope fields are carried verbatim. -/
structure BatchRequest where
  custom_id : JStr
  method : JStr
  url : JStr
  model : JStr
  systemContent : JStr
  userContent : JStr
  temperature : Rat
  max_tokens : Nat
  seed : Nat
  response_format : JStr
deriving DecidableEq, Repr

def mkBatchRequest (customId model userContent : JStr) : BatchRequest :=
  { custom_id := customId
    method := str "POST"
    url := str "/v1/chat/completions"
    model := model
    systemContent := str "You are a helpful assistant. Return valid JSON only."
    userContent := userContent
    temperature := 0
    max_tokens := 256
    seed := 42
    response_format := str "json_object" }

structure BatchData where
  requests : List BatchRequest
  rowIndices : List Nat
deriving DecidableEq, Repr

/-- Headers after the `Status` column is ensured (src:6519–6524). -/
def prepHeaders1 (grid : List (List Cell)) : List Cell :=
  if jsIndexOf (grid.headD []) (Cell.str (str "Status")) = none
  then grid.headD [] ++ [Cell.str (str "Status")] else grid.headD []

/-- The `Batch ID` column index used by `prepareBatchDataRange`
(src:6527–6532, computed after the `Status` column is ensured). -/
def batchColOf (grid : List (List Cell)) : Nat :=
  (jsIndexOf (prepHeaders1 grid) (Cell.str (str "Batch ID"))).getD (prepHeaders1 grid).length

/-- Headers after both `Status` and `Batch ID` are ensured; these are the
headers `replacePlaceholders` receives (src:6557). -/
def prepHeaders2 (grid : List (List Cell)) : List Cell :=
  if jsIndexOf (prepHeaders1 grid) (Cell.str (str "Batch ID")) = none
  then prepHeaders1 grid ++ [Cell.str (str "Batch ID")] else prepHeaders1 grid

/-- The skip test of src/SheetAI.js:6543–6546. -/
def rowSkipped (grid : List (List Cell)) (ri : Nat) : Bool :=
  grid.length ≤ ri
    ∨ (getCell (grid.getD ri []) (statusColOf grid)).gtZero
    ∨ (getCell (grid.getD ri []) (batchColOf grid)).truthy

/-- The inner prompt loop of src/SheetAI.js:6552–6583 for one row
(0-based data index `ri`). -/
def requestsForRow (grid prompts : List (List Cell)) (defaultModel : JStr)
    (ri : Nat) : List BatchRequest :=
  prompts.enum.map (fun pe =>
    let promptName := cellToJsString (getCell pe.2 0)
    let promptText := cellToJsString (getCell pe.2 1)
    let modelCell := getCell pe.2 2
    mkBatchRequest
      (encodeCorrelationId (ri + 1) (pe.1 + 1) promptName)
      (jsToLowerCase (if modelCell.truthy then cellToJsString modelCell else defaultModel))
      (replacePlaceholders promptText (prepHeaders2 grid) (grid.getD ri [])))

/-- `prepareBatchDataRange` (final variant, src/SheetAI.js:6484–6590).
The source's single loop pushing into `rowIndices` and `requests` is
rendered as a filter of the index range followed by a map/flatMap. -/
def prepareBatchDataRange (grid prompts : List (List Cell)) (defaultModel : JStr)
    (startRow endRow : Int) : BatchData :=
  if startRow ≤ 0 ∨ endRow ≤ 0 ∨ startRow > endRow then ⟨[], []⟩
  else
    let endRow2 := min endRow (grid.length : Int)
    if startRow = 1 ∧ endRow2 = 1 then ⟨[], []⟩
    else
      let lo : Nat := (startRow - 1).toNat
      let hi : Nat := endRow2.toNat
      let included := (List.range' lo (hi - lo)).filter (fun ri => ¬ rowSkipped grid ri)
      { requests := included.flatMap (fun ri => requestsForRow grid prompts defaultModel ri)
        rowIndices := included.map (· + 1) }

/-- Claim C2 — submission re-entrancy: a row whose `Status` is `> 0` or
whose `Batch ID` cell is truthy before the pass is never included in the
selected `rowIndices`, and no request built by the pass carries a
correlation id decoding to that row. -/
theorem prepareBatchDataRange_reentrancy (grid prompts : List (List Cell))
    (defaultModel : JStr) (startRow endRow : Int) (i : Nat)
    (h : (getCell (grid.getD i []) (statusColOf grid)).gtZero = true
       ∨ (getCell (grid.getD i []) (batchColOf grid)).truthy = true) :
    (i + 1) ∉ (prepareBatchDataRange grid prompts defaultModel startRow endRow).rowIndices
    ∧ ∀ r ∈ (prepareBatchDataRange grid prompts defaultModel startRow endRow).requests,
        ∀ rn pn nm, decodeCorrelationIdE r.custom_id = DecodeOutcome.ok rn pn nm →
          rn ≠ (i : Int) + 1 := by
  have hskip : rowSkipped grid i = true := by
    simp only [rowSkipped, Bool.or_eq_true, decide_eq_true_eq]
    rcases h with h | h
    · right; left; exact h
    · right; right; exact h
  unfold prepareBatchDataRange
  by_cases h1 : startRow ≤ 0 ∨ endRow ≤ 0 ∨ startRow > endRow
  · rw [if_pos h1]
    exact ⟨by simp, by simp⟩
  · rw [if_neg h1]
    by_cases h2 : startRow = 1 ∧ min endRow (grid.length : Int) = 1
    · rw [if_pos h2]
      exact ⟨by simp, by simp⟩
    · rw [if_neg h2]
      constructor
      · intro hmem
        simp only [List.mem_map] at hmem
        obtain ⟨ri, hri, hrieq⟩ := hmem
        have : ri = i := by omega
        subst this
        simp only [List.mem_filter] at hri
        rw [hskip] at hri
        simp at hri
      · intro r hr rn pn nm hdec
        simp only [List.mem_flatMap] at hr
        obtain ⟨ri, hri, hreq⟩ := hr
        simp only [List.mem_filter] at hri
        have hne : ri ≠ i := by
          intro he
          subst he
          rw [hskip] at hri
          simp at hri
        simp only [requestsForRow, List.mem_map] at hreq
        obtain ⟨pe, _hpe, hpeeq⟩ := hreq
        have hcid : r.custom_id
            = encodeCorrelationId (ri + 1) (pe.1 + 1)
                (cellToJsString (getCell pe.2 0)) := by
          rw [← hpeeq]
          rfl
        rw [hcid, correlation_decode_encode] at hdec
        injection hdec with e1 e2 e3
        rw [← e1]
        intro heq
        have : ri = i := by omega
        exact hne this

/-- Witness for the C2 theorem at a concrete sheet. -/
def c2grid : List (List Cell) :=
  [[Cell.str (str "Name"), Cell.str (str "Status"), Cell.str (str "Batch ID")],
   [Cell.str (str "x"), Cell.num 1, Cell.str (str "id1")],
   [Cell.str (str "y"), Cell.blank, Cell.blank]]

def c2prompts : List (List Cell) :=
  [[Cell.str (str "P"), Cell.str (str "say hi"), Cell.blank]]

theorem prepareBatchDataRange_reentrancy_witness :
    ((getCell (c2grid.getD 1 []) (statusColOf c2grid)).gtZero = true
      ∨ (getCell (c2grid.getD 1 []) (batchColOf c2grid)).truthy = true)
    ∧ ((1 + 1) ∉ (prepareBatchDataRange c2grid c2prompts (str "gpt-4o-mini") 2 3).rowIndices
       ∧ ∀ r ∈ (prepareBatchDataRange c2grid c2prompts (str "gpt-4o-mini") 2 3).requests,
           ∀ rn pn nm, decodeCorrelationIdE r.custom_id = DecodeOutcome.ok rn pn nm →
             rn ≠ (1 : Int) + 1) :=
  ⟨by decide,
    prepareBatchDataRange_reentrancy c2grid c2prompts (str "gpt-4o-mini") 2 3 1 (by decide)⟩

/-! ## createBatch (final variant, src/SheetAI.js:6357–6409) and
createBatchJob (src:6756–6783)

Side effects are recorded as a trace of `SubmitAction`s.  The size guards
return before any remote call: the 50,000-request check at src:6385 and
the 200 MB document check at src:6763–6768 both precede the upload.  The
remote responses are oracle parameters (`uploadedId`, `created`). -/

inductive SubmitAction where
  | uploadFile
  | createProviderBatch
  | ledgerAppend
  | stampRow (row : Nat)
deriving DecidableEq, Repr

inductive SubmitOutcome where
  | missingKey
  | noRows
  | noRequests
  | tooLarge
  | docTooLarge
  | uploadFailed
  | createFailed
  | success
deriving DecidableEq, Repr

/-- Provider batch object (the fields the script reads). -/
structure ProviderBatchInfo where
  id : JStr
  status : JStr
  input_file_id : JStr
  output_file_id : JStr
  error_file_id : JStr
  total : Nat
  completed : Nat
  failed : Nat
deriving DecidableEq, Repr

/-- JSON string escaping as performed by `JSON.stringify`. -/
def jsonEscapeChar (c : Char) : JStr :=
  if c = Char.ofNat 34 then [Char.ofNat 92, Char.ofNat 34]
  else if c = Char.ofNat 92 then [Char.ofNat 92, Char.ofNat 92]
  else if c = '\n' then [Char.ofNat 92, 'n']
  else if c = '\r' then [Char.ofNat 92, 'r']
  else if c = '\t' then [Char.ofNat 92, 't']
  else if c.toNat < 32 then
    [Char.ofNat 92, 'u', '0', '0', hexDigitChar (c.toNat / 16), hexDigitChar (c.toNat % 16)]
  else [c]

def jsonQuote (s : JStr) : JStr :=
  Char.ofNat 34 :: s.flatMap jsonEscapeChar ++ [Char.ofNat 34]

/-- `JSON.stringify` of one request object (src:6565–6580 shape). -/
def serializeRequest (r : BatchRequest) : JStr :=
  Char.ofNat 123 :: (str "\x22custom_id\x22:" ++ jsonQuote r.custom_id
    ++ str ",\x22method\x22:" ++ jsonQuote r.method
    ++ str ",\x22url\x22:" ++ jsonQuote r.url
    ++ str ",\x22body\x22:" ++ [Char.ofNat 123]
    ++ str "\x22model\x22:" ++ jsonQuote r.model
    ++ str ",\x22messages\x22:[" ++ [Char.ofNat 123]
    ++ str "\x22role\x22:\x22system\x22,\x22content\x22:" ++ jsonQuote r.systemContent
    ++ [Char.ofNat 125, ','] ++ [Char.ofNat 123]
    ++ str "\x22role\x22:\x22user\x22,\x22content\x22:" ++ jsonQuote r.userContent
    ++ [Char.ofNat 125, ']']
    ++ str ",\x22temperature\x22:0,\x22max_tokens\x22:256,\x22seed\x22:42"
    ++ str ",\x22response_format\x22:" ++ [Char.ofNat 123]
    ++ str "\x22type\x22:\x22json_object\x22" ++ [Char.ofNat 125]
    ++ [Char.ofNat 125, Char.ofNat 125])

/-- `createJsonlContent` (src:6790–6794): newline-joined serialized requests. -/
def createJsonlContent : List BatchRequest → JStr
  | [] => []
  | [r] => serializeRequest r
  | r :: rs => serializeRequest r ++ '\n' :: createJsonlContent rs

/-- The post-`prepareBatchDataRange` part of `createBatch`
(src:6379–6399), with `createBatchJob` (src:6756–6783) inlined in source
order: empty-check, 50,000-request check, 200 MB document check, upload,
provider batch creation, ledger append (`storeBatchInfo`, src:6616–6657),
and row stamping (`updateDataSheetWithBatchId`, src:6595–6611; one
`stampRow` stands for that row's Batch ID and Status writes). -/
def submitPreparedBatch (batchData : BatchData) (uploadedId : JStr)
    (created : Option ProviderBatchInfo) : SubmitOutcome × List SubmitAction :=
  if batchData.requests.length = 0 then (SubmitOutcome.noRequests, [])
  else if batchData.requests.length > 50000 then (SubmitOutcome.tooLarge, [])
  else if ((createJsonlContent batchData.requests).length : Rat) / (1024 * 1024) > 200 then
    (SubmitOutcome.docTooLarge, [])
  else if uploadedId = [] then (SubmitOutcome.uploadFailed, [SubmitAction.uploadFile])
  else
    match created with
    | none =>
      (SubmitOutcome.createFailed, [SubmitAction.uploadFile, SubmitAction.createProviderBatch])
    | some _ =>
      (SubmitOutcome.success,
        [SubmitAction.uploadFile, SubmitAction.createProviderBatch, SubmitAction.ledgerAppend]
          ++ batchData.rowIndices.map SubmitAction.stampRow)

/-- `createBatch` (final variant, src/SheetAI.js:6357–6409). -/
def createBatch (apiKey : JStr) (grid prompts : List (List Cell)) (defaultModel : JStr)
    (maxRows batchSize : Nat) (uploadedId : JStr) (created : Option ProviderBatchInfo) :
    SubmitOutcome × List SubmitAction :=
  if apiKey = [] then (SubmitOutcome.missingKey, [])
  else
    match findNextBatchRows grid maxRows batchSize with
    | none => (SubmitOutcome.noRows, [])
    | some info =>
      if info.startRow > info.endRow then (SubmitOutcome.noRows, [])
      else
        submitPreparedBatch
          (prepareBatchDataRange grid prompts defaultModel info.startRow info.endRow)
          uploadedId created

/-- Claim C5 — batch-size precondition with no side effects: whenever the
prepared request list holds more than 50,000 requests, submission stops
with the `tooLarge` precondition outcome and the action trace is empty:
no file upload, no provider batch creation, no Ledger append, and no row
stamping. -/
theorem submitPreparedBatch_too_large (batchData : BatchData) (uploadedId : JStr)
    (created : Option ProviderBatchInfo) (h : batchData.requests.length > 50000) :
    submitPreparedBatch batchData uploadedId created = (SubmitOutcome.tooLarge, []) := by
  unfold submitPreparedBatch
  rw [if_neg (by omega), if_pos h]

/-- Witness for the C5 theorem: a prepared list of exactly 50,001 requests. -/
theorem submitPreparedBatch_too_large_witness :
    ((List.replicate 50001 (mkBatchRequest (str "x") (str "m") (str "c"))).length > 50000)
    ∧ submitPreparedBatch
        ⟨List.replicate 50001 (mkBatchRequest (str "x") (str "m") (str "c")), []⟩
        (str "file-1") none
      = (SubmitOutcome.tooLarge, []) :=
  ⟨by rw [List.length_replicate]; omega, submitPreparedBatch_too_large _ _ _
    (by rw [List.length_replicate]; omega)⟩

/-! ## Ledger selection (variant 2, src/SheetAI.js:796–820)

After the update loop of `checkAndProcessNextCompletedBatch` refreshes the
Batch Status sheet from the provider, the selection loop re-reads the
sheet and picks the first row with `status === "completed"`, a truthy
output file id, and `(processed || "No") === "No"`, in sheet (insertion)
order. -/

structure LedgerRow where
  batchId : Cell
  openAIBatchId : Cell
  status : Cell
  outputFileId : Cell
  processed : Cell
deriving DecidableEq, Repr

def dfltLedgerRow : LedgerRow :=
  ⟨Cell.blank, Cell.blank, Cell.blank, Cell.blank, Cell.blank⟩

/-- The eligibility test of src/SheetAI.js:811 (with the
`processed || "No"` defaulting of src:807). -/
def eligibleForProcessing (r : LedgerRow) : Bool :=
  r.status = Cell.str (str "completed") ∧ r.outputFileId.truthy
    ∧ (if r.processed.truthy then r.processed else Cell.str (str "No"))
        = Cell.str (str "No")

/-- The selection loop of src/SheetAI.js:803–820, scanning ledger rows in
sheet order (the counter `i` starts at 1, the first data row). -/
def nextCompletedUnprocessed : List LedgerRow → Nat → Option (Nat × LedgerRow)
  | [], _ => none
  | r :: rs, i =>
    if eligibleForProcessing r then some (i, r)
    else nextCompletedUnprocessed rs (i + 1)

/-- Setting the `Processed` flag, the write of src/SheetAI.js:6713. -/
def markProcessed (r : LedgerRow) : LedgerRow :=
  { r with processed := Cell.str (str "Yes") }

theorem nextCompletedUnprocessed_some :
    ∀ (rows : List LedgerRow) (k i : Nat) (r : LedgerRow),
      nextCompletedUnprocessed rows k = some (i, r) →
      k ≤ i ∧ i - k < rows.length ∧ rows.getD (i - k) dfltLedgerRow = r ∧
      eligibleForProcessing r = true ∧
      ∀ j, j < i - k → eligibleForProcessing (rows.getD j dfltLedgerRow) = false := by
  intro rows
  induction rows with
  | nil => intro k i r h; simp [nextCompletedUnprocessed] at h
  | cons r0 rest ih =>
    intro k i r h
    simp only [nextCompletedUnprocessed] at h
    by_cases hr : eligibleForProcessing r0 = true
    · rw [if_pos hr] at h
      injection h with h
      injection h with e1 e2
      subst e1
      subst e2
      refine ⟨le_refl _, by simp, by simp, hr, ?_⟩
      intro j hj
      omega
    · rw [if_neg hr] at h
      obtain ⟨h1, h2, h3, h4, h5⟩ := ih (k + 1) i r h
      refine ⟨by omega, by simp; omega, ?_, h4, ?_⟩
      · have he : i - k = (i - (k + 1)) + 1 := by omega
        rw [he]
        simpa using h3
      · intro j hj
        cases j with
        | zero => simpa using eq_false_of_ne_true hr
        | succ j2 =>
          have : j2 < i - (k + 1) := by omega
          simpa using h5 j2 this

theorem nextCompletedUnprocessed_none :
    ∀ (rows : List LedgerRow) (k : Nat),
      nextCompletedUnprocessed rows k = none →
      ∀ r ∈ rows, eligibleForProcessing r = false := by
  intro rows
  induction rows with
  | nil => intro k h r hr; simp at hr
  | cons r0 rest ih =>
    intro k h r hr
    simp only [nextCompletedUnprocessed] at h
    by_cases hr0 : eligibleForProcessing r0 = true
    · rw [if_pos hr0] at h; exact absurd h (by simp)
    · rw [if_neg hr0] at h
      rcases List.mem_cons.1 hr with h2 | h2
      · subst h2; exact eq_false_of_ne_true hr0
      · exact ih (k + 1) h r h2

theorem eligible_markProcessed_false (r : LedgerRow) :
    eligibleForProcessing (markProcessed r) = false := by
  simp only [eligibleForProcessing, markProcessed]
  have ht : Cell.truthy (Cell.str (str "Yes")) = true := by decide
  have hne : (Cell.str (str "Yes") : Cell) ≠ Cell.str (str "No") := by decide
  simp [ht, hne]

/-- Claim C6 — next-batch selection determinism: the batch chosen for
result processing is the first Ledger entry, in insertion order, whose
status is `"completed"`, whose output file id is present, and whose
processed flag is not set (`none` exactly when no entry qualifies); the
selection is a pure function of the Ledger snapshot (identical snapshots
yield identical selections), and once the selected entry's processed flag
is set the same entry is never selected again. -/
theorem nextCompletedUnprocessed_spec (l : List LedgerRow) :
    (∀ i r, nextCompletedUnprocessed l 1 = some (i, r) →
      1 ≤ i ∧ i - 1 < l.length ∧ l.getD (i - 1) dfltLedgerRow = r ∧
      eligibleForProcessing r = true ∧
      (∀ j, j < i - 1 → eligibleForProcessing (l.getD j dfltLedgerRow) = false) ∧
      (∀ r2, nextCompletedUnprocessed (l.set (i - 1) (markProcessed r)) 1 ≠ some (i, r2)))
    ∧ (nextCompletedUnprocessed l 1 = none →
        ∀ r ∈ l, eligibleForProcessing r = false) := by
  constructor
  · intro i r h
    obtain ⟨h1, h2, h3, h4, h5⟩ := nextCompletedUnprocessed_some l 1 i r h
    refine ⟨h1, h2, h3, h4, h5, ?_⟩
    intro r2 hset
    obtain ⟨g1, g2, g3, g4, g5⟩ := nextCompletedUnprocessed_some _ 1 i r2 hset
    have hget : (l.set (i - 1) (markProcessed r)).getD (i - 1) dfltLedgerRow
        = markProcessed r := by
      simp only [List.getD_eq_getElem?_getD]
      rw [List.getElem?_set_self (by simpa using h2)]
      rfl
    rw [hget] at g3
    rw [← g3] at g4
    rw [eligible_markProcessed_false] at g4
    exact absurd g4 (by simp)
  · exact nextCompletedUnprocessed_none l 1

/-- Witness for the C6 theorem at a concrete ledger snapshot. -/
def c6ledger : List LedgerRow :=
  [⟨Cell.str (str "b1"), Cell.str (str "ob1"), Cell.str (str "in_progress"),
      Cell.blank, Cell.str (str "No")⟩,
   ⟨Cell.str (str "b2"), Cell.str (str "ob2"), Cell.str (str "completed"),
      Cell.str (str "f2"), Cell.str (str "No")⟩,
   ⟨Cell.str (str "b3"), Cell.str (str "ob3"), Cell.str (str "completed"),
      Cell.str (str "f3"), Cell.str (str "No")⟩]

theorem nextCompletedUnprocessed_spec_witness :
    (nextCompletedUnprocessed c6ledger 1 = some (2, c6ledger.getD 1 dfltLedgerRow))
    ∧ (1 ≤ 2 ∧ 2 - 1 < c6ledger.length ∧
       c6ledger.getD (2 - 1) dfltLedgerRow = c6ledger.getD 1 dfltLedgerRow ∧
       eligibleForProcessing (c6ledger.getD 1 dfltLedgerRow) = true ∧
       (∀ j, j < 2 - 1 → eligibleForProcessing (c6ledger.getD j dfltLedgerRow) = false) ∧
       (∀ r2, nextCompletedUnprocessed
           (c6ledger.set (2 - 1) (markProcessed (c6ledger.getD 1 dfltLedgerRow))) 1
         ≠ some (2, r2))) :=
  ⟨by decide,
    (nextCompletedUnprocessed_spec c6ledger).1 2 (c6ledger.getD 1 dfltLedgerRow) (by decide)⟩

/-! ## Pricing (src/SheetAI.js:5607–5629, :4675–4702, :6341–6350)

The same `PRICING_CONFIG` / `PRICING_CONFIG_BATCH` tables appear in
variants 4 and 5.  The `cached_input_per_1m` column of the standard table
is never read by `calculateCost` / `getPricing` and is omitted from the
embedded records. -/

structure PriceRates where
  input_per_1m : Rat
  output_per_1m : Rat
deriving DecidableEq, Repr

def PRICING_CONFIG : List (JStr × PriceRates) :=
  [(str "gpt-4.5-preview", ⟨75.00, 150.00⟩),
   (str "gpt-4o", ⟨2.50, 10.00⟩),
   (str "gpt-4o-mini", ⟨0.15, 0.60⟩),
   (str "gpt-4o-mini-audio-preview", ⟨0.15, 0.60⟩),
   (str "gpt-4o-audio-preview", ⟨2.50, 10.00⟩),
   (str "gpt-4o-mini-realtime-preview", ⟨0.60, 2.40⟩),
   (str "gpt-4o-realtime-preview", ⟨5.00, 20.00⟩),
   (str "o3-mini", ⟨1.10, 4.40⟩),
   (str "o1-mini", ⟨1.10, 4.40⟩),
   (str "o1", ⟨15.00, 60.00⟩)]

def PRICING_CONFIG_BATCH : List (JStr × PriceRates) :=
  [(str "gpt-4o-mini", ⟨0.075, 0.30⟩),
   (str "o3-mini", ⟨0.55, 2.20⟩),
   (str "o1-mini", ⟨0.55, 2.20⟩),
   (str "o1", ⟨7.50, 30.00⟩),
   (str "gpt-4o", ⟨1.25, 5.00⟩),
   (str "gpt-4.5-preview", ⟨37.50, 75.00⟩)]

/-- JS property lookup in a pricing table (`undefined` as `none`). -/
def tableLookup (t : List (JStr × PriceRates)) (k : JStr) : Option PriceRates :=
  (t.find? (fun e => e.1 == k)).map (fun e => e.2)

/-- `calculateCost` (variant 4, src/SheetAI.js:4675–4702): lowercase the
model, select the batch or standard table, fall back to half standard
rates (batch mode, model only in the standard table) and finally to the
table's `gpt-4o-mini` entry; `none` would model the JS throw on a missing
entry and never occurs. -/
def calculateCostV4 (model : JStr) (inputTokens outputTokens : Rat) (isBatch : Bool) :
    Option Rat :=
  let modelLower := jsToLowerCase model
  let pricingConfig := if isBatch then PRICING_CONFIG_BATCH else PRICING_CONFIG
  let pricing : Option PriceRates :=
    match tableLookup pricingConfig modelLower with
    | some p => some p
    | none =>
      if isBatch then
        match tableLookup PRICING_CONFIG modelLower with
        | some p => some ⟨p.input_per_1m / 2, p.output_per_1m / 2⟩
        | none => tableLookup pricingConfig (str "gpt-4o-mini")
      else tableLookup pricingConfig (str "gpt-4o-mini")
  pricing.map (fun p =>
    (inputTokens / 1000000) * p.input_per_1m + (outputTokens / 1000000) * p.output_per_1m)

/-- `getPricing` (final variant, src/SheetAI.js:6019–6021):
`PRICING_CONFIG[model.toLowerCase()] || PRICING_CONFIG["gpt-4o-mini"]`. -/
def getPricing (model : JStr) : Option PriceRates :=
  match tableLookup PRICING_CONFIG (jsToLowerCase model) with
  | some p => some p
  | none => tableLookup PRICING_CONFIG (str "gpt-4o-mini")

/-- `calculateCost` (final variant, src/SheetAI.js:6341–6350).  Token
counts are `Option Rat` with `none` for `NaN`; a `NaN` operand poisons
the result, as JS arithmetic does. -/
def calculateCostV5 (model : JStr) (inputTokens outputTokens : Option Rat) : Option Rat :=
  match getPricing model with
  | none => none
  | some p => do
      let i ← inputTokens
      let o ← outputTokens
      pure (i * (p.input_per_1m / 1000000) + o * (p.output_per_1m / 1000000))

/-- Claim C10 — cost calculation is total over model identifiers, with
the fallback chain of variant 4 (src:4675–4702): every model string gets
a defined cost; a model absent from the selected table falls back to that
table's `gpt-4o-mini` rates; in batch mode a model present only in the
standard table gets half the standard rates; and the final variant's
`calculateCost` (src:6341–6350, via `getPricing`) is likewise total. -/
theorem calculateCost_total_fallback :
    (∀ (model : JStr) (i o : Rat) (isBatch : Bool),
      ∃ c, calculateCostV4 model i o isBatch = some c)
    ∧ (∀ (model : JStr) (i o : Rat),
      tableLookup PRICING_CONFIG (jsToLowerCase model) = none →
      calculateCostV4 model i o false
        = some ((i / 1000000) * 0.15 + (o / 1000000) * 0.60))
    ∧ (∀ (model : JStr) (i o : Rat),
      tableLookup PRICING_CONFIG_BATCH (jsToLowerCase model) = none →
      tableLookup PRICING_CONFIG (jsToLowerCase model) = none →
      calculateCostV4 model i o true
        = some ((i / 1000000) * 0.075 + (o / 1000000) * 0.30))
    ∧ (∀ (model : JStr) (i o : Rat) (p : PriceRates),
      tableLookup PRICING_CONFIG_BATCH (jsToLowerCase model) = none →
      tableLookup PRICING_CONFIG (jsToLowerCase model) = some p →
      calculateCostV4 model i o true
        = some ((i / 1000000) * (p.input_per_1m / 2) + (o / 1000000) * (p.output_per_1m / 2)))
    ∧ (∀ (model : JStr) (i o : Rat),
      ∃ c, calculateCostV5 model (some i) (some o) = some c) := by
  have hminiStd : tableLookup PRICING_CONFIG (str "gpt-4o-mini")
      = some ⟨0.15, 0.60⟩ := rfl
  have hminiBatch : tableLookup PRICING_CONFIG_BATCH (str "gpt-4o-mini")
      = some ⟨0.075, 0.30⟩ := rfl
  refine ⟨?_, ?_, ?_, ?_, ?_⟩
  · intro model i o isBatch
    cases htl : tableLookup (if isBatch then PRICING_CONFIG_BATCH else PRICING_CONFIG)
        (jsToLowerCase model) with
    | some p =>
      exact ⟨(i / 1000000) * p.input_per_1m + (o / 1000000) * p.output_per_1m,
        by simp [calculateCostV4, htl]⟩
    | none =>
      cases isBatch with
      | false =>
        simp only [Bool.false_eq_true, if_false] at htl
        exact ⟨(i / 1000000) * (0.15 : Rat) + (o / 1000000) * (0.60 : Rat),
          by simp [calculateCostV4, htl, hminiStd]⟩
      | true =>
        simp only [if_true] at htl
        cases hstd : tableLookup PRICING_CONFIG (jsToLowerCase model) with
        | some p =>
          exact ⟨(i / 1000000) * (p.input_per_1m / 2) + (o / 1000000) * (p.output_per_1m / 2),
            by simp [calculateCostV4, htl, hstd]⟩
        | none =>
          exact ⟨(i / 1000000) * (0.075 : Rat) + (o / 1000000) * (0.30 : Rat),
            by simp [calculateCostV4, htl, hstd, hminiBatch]⟩
  · intro model i o htl
    simp [calculateCostV4, htl, hminiStd]
  · intro model i o hb hs
    simp [calculateCostV4, hb, hs, hminiBatch]
  · intro model i o p hb hs
    simp [calculateCostV4, hb, hs]
  · intro model i o
    cases htl : tableLookup PRICING_CONFIG (jsToLowerCase model) with
    | some p =>
      exact ⟨i * (p.input_per_1m / 1000000) + o * (p.output_per_1m / 1000000),
        by simp [calculateCostV5, getPricing, htl]⟩
    | none =>
      exact ⟨i * ((0.15 : Rat) / 1000000) + o * ((0.60 : Rat) / 1000000),
        by simp [calculateCostV5, getPricing, htl, hminiStd]⟩

/-- Witness for the C10 theorem at the unlisted model string `"zzz"`. -/
theorem calculateCost_total_fallback_witness :
    (tableLookup PRICING_CONFIG (jsToLowerCase (str "zzz")) = none
      ∧ tableLookup PRICING_CONFIG_BATCH (jsToLowerCase (str "zzz")) = none
      ∧ tableLookup PRICING_CONFIG_BATCH (jsToLowerCase (str "GPT-4o-realtime-preview")) = none
      ∧ tableLookup PRICING_CONFIG (jsToLowerCase (str "GPT-4o-realtime-preview"))
          = some ⟨5.00, 20.00⟩)
    ∧ calculateCostV4 (str "zzz") 1000 500 false
        = some ((1000 / 1000000) * 0.15 + (500 / 1000000) * 0.60)
    ∧ calculateCostV4 (str "zzz") 1000 500 true
        = some ((1000 / 1000000) * 0.075 + (500 / 1000000) * 0.30)
    ∧ calculateCostV4 (str "GPT-4o-realtime-preview") 1000 500 true
        = some ((1000 / 1000000) * ((5.00 : Rat) / 2) + (500 / 1000000) * ((20.00 : Rat) / 2)) :=
  ⟨⟨by decide, by decide, by decide, by rfl⟩,
    calculateCost_total_fallback.2.1 (str "zzz") 1000 500 (by decide),
    calculateCost_total_fallback.2.2.1 (str "zzz") 1000 500 (by decide) (by decide),
    calculateCost_total_fallback.2.2.2.1 (str "GPT-4o-realtime-preview") 1000 500
      ⟨5.00, 20.00⟩ (by decide) (by rfl)⟩

/-! ## JSON values and JSON.parse

`processOutputFile` parses each result line and the model's content with
`JSON.parse`.  The embedded parser covers the JSON fragment those
documents use; two restrictions are flagged: numbers are parsed as
integers (fractional/exponent literals fail the parse — the provider
envelope uses integer status codes and token counts), and string escapes
decoding to lone UTF-16 surrogates fail (such strings have no
representation as unicode scalar sequences).  Duplicate object keys keep
their first occurrence. -/

inductive Json where
  | null
  | undef
  | bool (b : Bool)
  | num (i : Int)
  | str (s : JStr)
  | arr (xs : List Json)
  | obj (fs : List (JStr × Json))

/-- JSON whitespace. -/
def jsonWs (c : Char) : Bool := c = ' ' || c = '\t' || c = '\n' || c = '\r'

def skipWs (s : JStr) : JStr := s.dropWhile jsonWs

/-- Single-character string escapes. -/
def escChar (c : Char) : Option Char :=
  if c = Char.ofNat 34 then some (Char.ofNat 34)
  else if c = Char.ofNat 92 then some (Char.ofNat 92)
  else if c = '/' then some '/'
  else if c = 'b' then some (Char.ofNat 8)
  else if c = 'f' then some (Char.ofNat 12)
  else if c = 'n' then some '\n'
  else if c = 'r' then some '\r'
  else if c = 't' then some '\t'
  else none

/-- Parse a string body (after the opening quote), returning the decoded
characters and the rest of the input. -/
def parseStrBodyF : Nat → JStr → Option (JStr × JStr)
  | 0, _ => none
  | fuel + 1, s =>
    match s with
    | [] => none
    | c :: rest =>
      if c = Char.ofNat 34 then some ([], rest)
      else if c = Char.ofNat 92 then
        match rest with
        | [] => none
        | e :: r2 =>
          if e = 'u' then
            match r2 with
            | h1 :: h2 :: h3 :: h4 :: r3 =>
              match hexVal h1, hexVal h2, hexVal h3, hexVal h4 with
              | some v1, some v2, some v3, some v4 =>
                let code := ((v1 * 16 + v2) * 16 + v3) * 16 + v4
                if code < 55296 ∨ 57344 ≤ code then
                  (parseStrBodyF fuel r3).map (fun p => (Char.ofNat code :: p.1, p.2))
                else
                  match r3 with
                  | b1 :: u2 :: g1 :: g2 :: g3 :: g4 :: r4 =>
                    if b1 = Char.ofNat 92 ∧ u2 = 'u' then
                      match hexVal g1, hexVal g2, hexVal g3, hexVal g4 with
                      | some w1, some w2, some w3, some w4 =>
                        let lo := ((w1 * 16 + w2) * 16 + w3) * 16 + w4
                        if code < 56320 ∧ 56320 ≤ lo ∧ lo < 57344 then
                          (parseStrBodyF fuel r4).map (fun p =>
                            (Char.ofNat (65536 + (code - 55296) * 1024 + (lo - 56320))
                              :: p.1, p.2))
                        else none
                      | _, _, _, _ => none
                    else none
                  | _ => none
              | _, _, _, _ => none
            | _ => none
          else
            match escChar e with
            | some ec => (parseStrBodyF fuel r2).map (fun p => (ec :: p.1, p.2))
            | none => none
      else if c.toNat < 32 then none
      else (parseStrBodyF fuel rest).map (fun p => (c :: p.1, p.2))

/-- JSON number (integer fragment; see the section comment). -/
def hasFracOrExp (r : JStr) : Bool :=
  match r with
  | c :: _ => c = '.' || c = 'e' || c = 'E'
  | [] => false

def parseJsonNumber (s : JStr) : Option (Json × JStr) :=
  match s with
  | '-' :: rest =>
    let ds := rest.takeWhile isDigitChar
    if ds = [] then none
    else
      let r := rest.drop ds.length
      if hasFracOrExp r then none else some (Json.num (-(digitsVal ds : Int)), r)
  | _ =>
    let ds := s.takeWhile isDigitChar
    if ds = [] then none
    else
      let r := s.drop ds.length
      if hasFracOrExp r then none else some (Json.num (digitsVal ds : Int), r)

mutual

def parseValueF : Nat → JStr → Option (Json × JStr)
  | 0, _ => none
  | fuel + 1, s =>
    match skipWs s with
    | [] => none
    | c :: rest =>
      if c = Char.ofNat 34 then
        match parseStrBodyF (rest.length + 1) rest with
        | some (cs, r) => some (Json.str cs, r)
        | none => none
      else if c = Char.ofNat 123 then parseObjF fuel rest
      else if c = '[' then parseArrF fuel rest
      else if (str "true").isPrefixOf (c :: rest) then
        some (Json.bool true, (c :: rest).drop 4)
      else if (str "false").isPrefixOf (c :: rest) then
        some (Json.bool false, (c :: rest).drop 5)
      else if (str "null").isPrefixOf (c :: rest) then
        some (Json.null, (c :: rest).drop 4)
      else parseJsonNumber (c :: rest)

def parseObjF : Nat → JStr → Option (Json × JStr)
  | 0, _ => none
  | fuel + 1, s =>
    match skipWs s with
    | [] => none
    | c :: rest =>
      if c = Char.ofNat 125 then some (Json.obj [], rest)
      else
        match parseMembersF fuel (c :: rest) with
        | some (fs, r) => some (Json.obj fs, r)
        | none => none

def parseMembersF : Nat → JStr → Option (List (JStr × Json) × JStr)
  | 0, _ => none
  | fuel + 1, s =>
    match skipWs s with
    | [] => none
    | c :: rest =>
      if c = Char.ofNat 34 then
        match parseStrBodyF (rest.length + 1) rest with
        | some (key, r1) =>
          match skipWs r1 with
          | ':' :: r2 =>
            match parseValueF fuel r2 with
            | some (v, r3) =>
              match skipWs r3 with
              | ',' :: r4 =>
                match parseMembersF fuel r4 with
                | some (fs, r5) => some ((key, v) :: fs, r5)
                | none => none
              | c2 :: r4 =>
                if c2 = Char.ofNat 125 then some ([(key, v)], r4) else none
              | [] => none
            | none => none
          | _ => none
        | none => none
      else none

def parseArrF : Nat → JStr → Option (Json × JStr)
  | 0, _ => none
  | fuel + 1, s =>
    match skipWs s with
    | [] => none
    | c :: rest =>
      if c = ']' then some (Json.arr [], rest)
      else
        match parseElemsF fuel (c :: rest) with
        | some (xs, r) => some (Json.arr xs, r)
        | none => none

def parseElemsF : Nat → JStr → Option (List Json × JStr)
  | 0, _ => none
  | fuel + 1, s =>
    match parseValueF fuel s with
    | some (v, r1) =>
      match skipWs r1 with
      | ',' :: r2 =>
        match parseElemsF fuel r2 with
        | some (xs, r3) => some (v :: xs, r3)
        | none => none
      | ']' :: r2 => some ([v], r2)
      | _ => none
    | none => none

end

/-- `JSON.parse` (fragment described in the section comment): parse one
value and require only whitespace to follow.  The fuel `4·|s| + 4`
dominates the recursion depth of any input. -/
def jsonParse (s : JStr) : Option Json :=
  match parseValueF (4 * s.length + 4) s with
  | some (v, rest) => if skipWs rest = [] then some v else none
  | none => none

/-- JS property access `j.key` (`undefined` when absent or when `j` is
not an object; accessing properties OF `undefined`/`null` is a separate
throwing case handled at the call sites). -/
def jsGet (j : Json) (key : String) : Json :=
  match j with
  | Json.obj fs =>
    match fs.find? (fun f => f.1 == str key) with
    | some f => f.2
    | none => Json.undef
  | _ => Json.undef

/-- JS index access `j[i]` (array elements; single characters of a
string; `undefined` otherwise). -/
def jsArrGet (j : Json) (i : Nat) : Json :=
  match j with
  | Json.arr xs => xs.getD i Json.undef
  | Json.str s =>
    match s[i]? with
    | some c => Json.str [c]
    | none => Json.undef
  | _ => Json.undef

def jsonTruthy : Json → Bool
  | Json.null => false
  | Json.undef => false
  | Json.bool b => b
  | Json.num i => i ≠ 0
  | Json.str s => s ≠ []
  | Json.arr _ => true
  | Json.obj _ => true

/-- Property access on these values throws a `TypeError` in JS. -/
def isUndefOrNull : Json → Bool
  | Json.undef => true
  | Json.null => true
  | _ => false

/-- `join(",")` of already-rendered element strings. -/
def joinComma : List JStr → JStr
  | [] => []
  | [x] => x
  | x :: xs => x ++ ',' :: joinComma xs

/-- `String(v)` for a parsed JSON value, as applied implicitly by
`JSON.parse(content)` when `content` is not a string.  Array rendering
(`join(",")` of element strings, empty for null/undefined elements) is
fuel-bounded in nesting depth; the claims never stringify nested
arrays. -/
def jsonToPrimStringF : Nat → Json → JStr
  | _, Json.undef => str "undefined"
  | _, Json.null => str "null"
  | _, Json.bool b => if b then str "true" else str "false"
  | _, Json.num i => intToJsDigits i
  | _, Json.str s => s
  | _, Json.obj _ => str "[object Object]"
  | 0, Json.arr _ => []
  | fuel + 1, Json.arr xs =>
    joinComma (xs.map (fun j =>
      match j with
      | Json.null => []
      | Json.undef => []
      | j => jsonToPrimStringF fuel j))

def jsonToPrimString (j : Json) : JStr := jsonToPrimStringF 100 j

/-- Token counts read off the usage object; `none` models `NaN`
(`undefined` fields; non-numeric shapes, which the provider never emits,
are approximated as `NaN` rather than JS string concatenation). -/
def jnum : Json → Option Rat
  | Json.num i => some (i : Rat)
  | _ => none

/-- `setValue` of a parsed JSON scalar; objects/arrays are stored via
their string form. -/
def jsonToCell : Json → Cell
  | Json.str s => Cell.str s
  | Json.num i => Cell.num (i : Rat)
  | Json.bool b => Cell.bool b
  | Json.null => Cell.blank
  | Json.undef => Cell.blank
  | j => Cell.str (jsonToPrimString j)

/-! ## processOutputFile (final variant, src/SheetAI.js:6905–7062)

The applier splits the downloaded output document on newlines, drops
blank lines, and folds a per-line handler over an apply state: the Data
sheet (base grid plus a write overlay — the sheet is treated as
unbounded, because every row ordinal the codec produces lies inside the
submitted range), the live header array (mutated in place by
`saveResponseToDataSheet`, src:6265), the success/failed counters, the
per-prompt metrics object, and a chronological trace of the side effects
(cell writes and log appends; log payloads such as timestamps and
message text are elided, keeping the row ordinal and error type).
`debugLog` calls are not modelled. -/

inductive ApplyEvent where
  /-- `setValue` of a result value (src:6269), at a 1-based sheet row and
  0-based column. -/
  | resultCell (row : Int) (col : Nat) (v : Cell)
  /-- `setValue` of a newly created header cell (src:6264). -/
  | headerCell (col : Nat) (name : JStr)
  /-- the `Status` write (src:6972). -/
  | statusCell (row : Int) (v : Cell)
  /-- the `Batch ID` backfill write (src:6979). -/
  | batchIdCell (row : Int) (v : Cell)
  /-- `addErrorLog(date, row, etype, message, batchId)` (appendRow). -/
  | errLog (row : Int) (etype : JStr)
  /-- `addExecutionLog` for a successful line (src:6991). -/
  | execLog (row : Int) (promptName : JStr)
  /-- `addPromptSummary` in the closing loop (src:7045). -/
  | summaryLog (promptName : JStr) (rowsExecuted : Nat) (cost : Option Rat)

/-- The Data sheet during the pass: the grid read at entry plus an
overlay of the writes made so far (latest write wins). -/
structure SheetState where
  base : List (List Cell)
  writes : List ((Int × Nat) × Cell)

def SheetState.read (st : SheetState) (row : Int) (col : Nat) : Cell :=
  match st.writes.find? (fun w => w.1.1 == row && w.1.2 == col) with
  | some w => w.2
  | none =>
    if 1 ≤ row then getCell (st.base.getD (row - 1).toNat []) col else Cell.blank

def SheetState.write (st : SheetState) (row : Int) (col : Nat) (v : Cell) : SheetState :=
  ⟨st.base, ((row, col), v) :: st.writes⟩

/-- One entry of `promptMetrics` (src:7003–7019).  Token and cost sums
are `Option Rat` with `none` for `NaN` (an `undefined` operand poisons
every later `+=`). -/
structure PromptMetric where
  count : Nat
  inputTokens : Option Rat
  outputTokens : Option Rat
  totalTokens : Option Rat
  cost : Option Rat
  model : JStr

/-- JS `+` on possibly-`NaN` numbers. -/
def addQ : Option Rat → Option Rat → Option Rat
  | some a, some b => some (a + b)
  | _, _ => none

structure ApplyState where
  sheet : SheetState
  headers : List Cell
  success : Nat
  failed : Nat
  metrics : List (JStr × PromptMetric)
  events : List ApplyEvent

/-- Per-call context: the ledger batch id passed in, and the positions of
the `Status` and `Batch ID` columns in the headers read at entry
(src:6910–6911). -/
structure LineParams where
  batchId : Cell
  statusCol : Option Nat
  batchCol : Option Nat

/-- The `for (var key in parsedResponse)` enumeration (src:6256): own
enumerable keys of an object, indices of an array or string, nothing for
primitives. -/
def saveKeys : Json → List (JStr × Json)
  | Json.obj fs => fs
  | Json.arr xs => xs.enum.map (fun q => (natToDigits q.1, q.2))
  | Json.str s => s.enum.map (fun q => (natToDigits q.1, Json.str [q.2]))
  | _ => []

/-- One iteration of `saveResponseToDataSheet`'s key loop
(src:6256–6271): find or create the `promptName - key` column, then
write the value at the line's row. -/
def saveOneKey (promptName : JStr) (row : Int) (st : ApplyState) (kv : JStr × Json) :
    ApplyState :=
  match jsIndexOf st.headers (Cell.str (promptName ++ str " - " ++ kv.1)) with
  | some colIndex =>
    { st with
      sheet := st.sheet.write row colIndex (jsonToCell kv.2)
      events := st.events ++ [ApplyEvent.resultCell row colIndex (jsonToCell kv.2)] }
  | none =>
    { st with
      headers := st.headers ++ [Cell.str (promptName ++ str " - " ++ kv.1)]
      sheet := (st.sheet.write 1 st.headers.length
          (Cell.str (promptName ++ str " - " ++ kv.1))).write row st.headers.length
          (jsonToCell kv.2)
      events := st.events
        ++ [ApplyEvent.headerCell st.headers.length (promptName ++ str " - " ++ kv.1),
            ApplyEvent.resultCell row st.headers.length (jsonToCell kv.2)] }

/-- `saveResponseToDataSheet(sheet, headers, rowNumber - 1, parsedContent,
promptName)` (src:6251–6276, called at src:6968). -/
def saveResponse (promptName : JStr) (row : Int) (content : Json) (st : ApplyState) :
    ApplyState :=
  (saveKeys content).foldl (saveOneKey promptName row) st

/-- The status write (src:6971–6973), skipped when the `Status` column is
absent. -/
def writeStatus (p : LineParams) (row : Int) (st : ApplyState) : ApplyState :=
  match p.statusCol with
  | some c =>
    { st with
      sheet := st.sheet.write row c (Cell.num 2)
      events := st.events ++ [ApplyEvent.statusCell row (Cell.num 2)] }
  | none => st

/-- The `Batch ID` backfill (src:6975–6981): write the ledger batch id
only when the current cell is falsy. -/
def backfillBatchId (p : LineParams) (row : Int) (st : ApplyState) : ApplyState :=
  match p.batchCol with
  | some c =>
    if (st.sheet.read row c).truthy then st
    else
      { st with
        sheet := st.sheet.write row c p.batchId
        events := st.events ++ [ApplyEvent.batchIdCell row p.batchId] }
  | none => st

/-- `promptMetrics` creation-then-accumulate (src:7003–7019). -/
def bumpMetric (name model : JStr) (inTok outTok totTok cost : Option Rat) :
    List (JStr × PromptMetric) → List (JStr × PromptMetric)
  | [] => [(name, ⟨1, inTok, outTok, totTok, cost, model⟩)]
  | m :: ms =>
    if m.1 = name then
      (m.1, ⟨m.2.count + 1, addQ m.2.inputTokens inTok, addQ m.2.outputTokens outTok,
        addQ m.2.totalTokens totTok, addQ m.2.cost cost, m.2.model⟩) :: ms
    else m :: bumpMetric name model inTok outTok totTok cost ms

/-- How one non-blank line is dispatched by the loop body
(src:6926–7036).  Each constructor is one exit of the control flow:

* `exnRowZero` — a throw reaching the outer catch (src:7032): the line is
  not JSON, `custom_id` is not a string so `.split` throws,
  `decodeURIComponent` throws, or the `choices[0].message` chain at
  src:6962 hits `undefined`/`null`; error-logged at row 0, counted failed.
* `invalidId` — the token-shape or `isNaN` checks fail (src:6933, 6946):
  error-logged at row 0 and skipped with `continue`, NOT counted.
* `apiError` — `result.error` truthy (src:6952): counted failed.
* `invalidResponse` — missing/non-200 response envelope (src:7027):
  counted failed.
* `contentParseFail` — `JSON.parse(content)` throws (src:7022): counted
  failed, nothing written.
* `innerFailAfterWrites` — the result WAS saved and status/batch-id
  written, then reading `usage.prompt_tokens` of an absent usage object
  or `model.toLowerCase()` of a non-string model throws inside the inner
  try (src:6984–6988): counted failed as a parse error.
* `ok` — full success: saves, status, backfill, execution log, metrics,
  success counter. -/
inductive LineClass where
  | blankSkip
  | exnRowZero
  | invalidId
  | apiError (row : Int) (name : JStr)
  | invalidResponse (row : Int) (name : JStr)
  | contentParseFail (row : Int) (name : JStr)
  | innerFailAfterWrites (row : Int) (name : JStr) (content : Json)
  | ok (row : Int) (name : JStr) (content : Json) (model : JStr)
      (inTok outTok totTok : Option Rat)

/-- `response.status_code === 200`. -/
def statusCode200 (resp : Json) : Bool :=
  match jsGet resp "status_code" with
  | Json.num i => i == 200
  | _ => false

/-- Classify one non-blank line by replaying the loop body's control flow
(src:6926–7036); see `LineClass` for the case-by-case source mapping. -/
def classifyLine (line : JStr) : LineClass :=
  if jsTrim line = [] then LineClass.blankSkip
  else
    match jsonParse line with
    | none => LineClass.exnRowZero
    | some j =>
      match jsGet j "custom_id" with
      | Json.str cid =>
        match decodeCorrelationIdE cid with
        | DecodeOutcome.invalidFormat => LineClass.invalidId
        | DecodeOutcome.nanIndex => LineClass.invalidId
        | DecodeOutcome.uriError => LineClass.exnRowZero
        | DecodeOutcome.ok rowNumber _promptIndex promptName =>
          if jsonTruthy (jsGet j "error") then LineClass.apiError rowNumber promptName
          else
            if jsonTruthy (jsGet j "response")
                && statusCode200 (jsGet j "response")
                && jsonTruthy (jsGet (jsGet j "response") "body") then
              if isUndefOrNull (jsGet (jsGet (jsGet j "response") "body") "choices")
                  || isUndefOrNull
                    (jsArrGet (jsGet (jsGet (jsGet j "response") "body") "choices") 0)
                  || isUndefOrNull
                    (jsGet (jsArrGet (jsGet (jsGet (jsGet j "response") "body") "choices") 0)
                      "message") then
                LineClass.exnRowZero
              else
                match jsonParse (jsonToPrimString
                    (jsGet (jsGet (jsArrGet (jsGet (jsGet (jsGet j "response") "body")
                      "choices") 0) "message") "content")) with
                | none => LineClass.contentParseFail rowNumber promptName
                | some parsed =>
                  if isUndefOrNull (jsGet (jsGet (jsGet j "response") "body") "usage") then
                    LineClass.innerFailAfterWrites rowNumber promptName parsed
                  else
                    match jsGet (jsGet (jsGet j "response") "body") "model" with
                    | Json.str ms =>
                      LineClass.ok rowNumber promptName parsed ms
                        (jnum (jsGet (jsGet (jsGet (jsGet j "response") "body") "usage")
                          "prompt_tokens"))
                        (jnum (jsGet (jsGet (jsGet (jsGet j "response") "body") "usage")
                          "completion_tokens"))
                        (jnum (jsGet (jsGet (jsGet (jsGet j "response") "body") "usage")
                          "total_tokens"))
                    | _ => LineClass.innerFailAfterWrites rowNumber promptName parsed
            else LineClass.invalidResponse rowNumber promptName
      | _ => LineClass.exnRowZero

/-- State transition for one classified line (the loop body's effects,
src:6926–7036). -/
def applyClass (p : LineParams) (st : ApplyState) : LineClass → ApplyState
  | LineClass.blankSkip => st
  | LineClass.exnRowZero =>
    { st with
      failed := st.failed + 1
      events := st.events ++ [ApplyEvent.errLog 0 (str "Processing Error")] }
  | LineClass.invalidId =>
    { st with events := st.events ++ [ApplyEvent.errLog 0 (str "Invalid Format")] }
  | LineClass.apiError row _name =>
    { st with
      failed := st.failed + 1
      events := st.events ++ [ApplyEvent.errLog row (str "API Error")] }
  | LineClass.invalidResponse row _name =>
    { st with
      failed := st.failed + 1
      events := st.events ++ [ApplyEvent.errLog row (str "Invalid Response")] }
  | LineClass.contentParseFail row _name =>
    { st with
      failed := st.failed + 1
      events := st.events ++ [ApplyEvent.errLog row (str "Parse Error")] }
  | LineClass.innerFailAfterWrites row name content =>
    let st3 := backfillBatchId p row (writeStatus p row (saveResponse name row content st))
    { st3 with
      failed := st3.failed + 1
      events := st3.events ++ [ApplyEvent.errLog row (str "Parse Error")] }
  | LineClass.ok row name content model inTok outTok totTok =>
    let st3 := backfillBatchId p row (writeStatus p row (saveResponse name row content st))
    { st3 with
      success := st3.success + 1
      metrics := bumpMetric name model inTok outTok totTok
        (calculateCostV5 model inTok outTok) st3.metrics
      events := st3.events ++ [ApplyEvent.execLog row name] }

def processLine (p : LineParams) (st : ApplyState) (line : JStr) : ApplyState :=
  applyClass p st (classifyLine line)

def processLines (p : LineParams) : ApplyState → List JStr → ApplyState
  | st, [] => st
  | st, l :: ls => processLines p (processLine p st l) ls

/-- The closing `addPromptSummary` loop (src:7043–7055): one summary per
metrics entry in insertion order, prompt name suffixed with " (Batch)",
cost halved. -/
def addSummaries (st : ApplyState) : ApplyState :=
  { st with events := st.events ++ st.metrics.map (fun m =>
      ApplyEvent.summaryLog (m.1 ++ str " (Batch)") m.2.count
        (Option.map (fun c => c * (1 / 2)) m.2.cost)) }

/-- JS `String.prototype.split("\n")`. -/
def splitOnNewline : JStr → List JStr
  | [] => [[]]
  | c :: cs =>
    if c = '\n' then [] :: splitOnNewline cs
    else
      match splitOnNewline cs with
      | [] => [[c]]
      | t :: ts => (c :: t) :: ts

/-- `outputContent.split("\n").filter(line => line.trim())` (src:6913). -/
def nonblankLines (outputContent : JStr) : List JStr :=
  (splitOnNewline outputContent).filter (fun l => jsTrim l ≠ [])

/-- The returned object (src:7057–7061). -/
structure ApplyResult where
  total : Nat
  success : Nat
  failed : Nat
deriving DecidableEq, Repr

/-- The per-call context read at entry (src:6907–6911). -/
def applyParams (grid : List (List Cell)) (batchId : Cell) : LineParams :=
  ⟨batchId, jsIndexOf (grid.headD []) (Cell.str (str "Status")),
    jsIndexOf (grid.headD []) (Cell.str (str "Batch ID"))⟩

/-- The state at entry: untouched sheet, headers from row 1, zero
counters, no metrics, empty trace. -/
def applyInit (grid : List (List Cell)) : ApplyState :=
  ⟨⟨grid, []⟩, grid.headD [], 0, 0, [], []⟩

/-- The state after the line loop and the summary loop. -/
def applyFinal (grid : List (List Cell)) (outputContent : JStr) (batchId : Cell) :
    ApplyState :=
  addSummaries (processLines (applyParams grid batchId) (applyInit grid)
    (nonblankLines outputContent))

/-- `processOutputFile(outputContent, rowMap, batchId)` (src:6905–7062);
`rowMap` is always `null` at the call site and unused.  Returns the
result summary and the final apply state (sheet overlay, counters,
metrics, side-effect trace). -/
def processOutputFile (grid : List (List Cell)) (outputContent : JStr) (batchId : Cell) :
    ApplyResult × ApplyState :=
  (⟨(nonblankLines outputContent).length,
      (applyFinal grid outputContent batchId).success,
      (applyFinal grid outputContent batchId).failed⟩,
    applyFinal grid outputContent batchId)

/-! ## processBatchById (final variant, src/SheetAI.js:6662–6727)

The per-batch applier entry point: scan the Batch Status sheet for the
row carrying the given OpenAI batch id, short-circuit with `true` when
its `Processed` cell is already `"Yes"` (src:6687–6690), otherwise
download the output file, run `processOutputFile`, and stamp the ledger
row.  Side effects are traced: the download, every apply event, and the
two ledger writes.  The download environment is a function from file-id
cell to document text (`[]` for an empty or failed download, both falsy
at src:6698). -/

inductive PBEvent where
  | download (fileId : Cell)
  | applyEv (e : ApplyEvent)
  /-- ledger `setValue` at 1-based row `row + 1` (src:6708, 6713). -/
  | ledgerWrite (row : Nat) (col : Nat) (v : Cell)

/-- The `for (var i = 1; ...)` scan with the per-match body
(src:6680–6720); `i` is the batchData index of the head of `rows`. -/
def pbLoop (dataGrid : List (List Cell)) (download : Cell → JStr) (oaId : Cell)
    (oa b o : Nat) (sCol pCol : Option Nat) : Nat → List (List Cell) → Bool × List PBEvent
  | _, [] => (false, [])
  | i, row :: rest =>
    if getCell row oa = oaId then
      if (match pCol with
          | some p => getCell row p
          | none => Cell.str (str "No")) = Cell.str (str "Yes") then
        (true, [])
      else if ¬(getCell row o).truthy then (false, [])
      else if download (getCell row o) = [] then (false, [PBEvent.download (getCell row o)])
      else
        (true,
          PBEvent.download (getCell row o)
            :: (processOutputFile dataGrid (download (getCell row o))
                (getCell row b)).2.events.map PBEvent.applyEv
            ++ (match sCol with
                | some s => [PBEvent.ledgerWrite (i + 1) s (Cell.str (str "processed"))]
                | none => [])
            ++ (match pCol with
                | some p => [PBEvent.ledgerWrite (i + 1) p (Cell.str (str "Yes"))]
                | none => []))
    else pbLoop dataGrid download oaId oa b o sCol pCol (i + 1) rest

/-- `processBatchById(openAIBatchId)` (src:6662–6727) over the Batch
Status grid (header row first), the Data sheet grid, and the download
environment.  Returns the boolean the source returns, plus the trace. -/
def processBatchById (ledger dataGrid : List (List Cell)) (download : Cell → JStr)
    (oaId : Cell) : Bool × List PBEvent :=
  if ledger.length ≤ 1 then (false, [])
  else
    match jsIndexOf (ledger.headD []) (Cell.str (str "OpenAI Batch ID")),
        jsIndexOf (ledger.headD []) (Cell.str (str "Batch ID")),
        jsIndexOf (ledger.headD []) (Cell.str (str "Output File ID")) with
    | some oa, some b, some o =>
      pbLoop dataGrid download oaId oa b o
        (jsIndexOf (ledger.headD []) (Cell.str (str "Status")))
        (jsIndexOf (ledger.headD []) (Cell.str (str "Processed")))
        1 (ledger.drop 1)
    | _, _, _ => (false, [])

/-- First data row (by scan order) whose `OpenAI Batch ID` cell equals
the target, with its batchData index. -/
def findFirstMatch (oa : Nat) (oaId : Cell) : Nat → List (List Cell) → Option (Nat × List Cell)
  | _, [] => none
  | i, row :: rest =>
    if getCell row oa = oaId then some (i, row)
    else findFirstMatch oa oaId (i + 1) rest

theorem pbLoop_processed (dataGrid : List (List Cell)) (download : Cell → JStr)
    (oaId : Cell) (oa b o : Nat) (sCol pCol : Option Nat) :
    ∀ (rows : List (List Cell)) (i j : Nat) (row : List Cell),
    findFirstMatch oa oaId i rows = some (j, row) →
    (match pCol with
      | some p => getCell row p
      | none => Cell.str (str "No")) = Cell.str (str "Yes") →
    pbLoop dataGrid download oaId oa b o sCol pCol i rows = (true, []) := by
  intro rows
  induction rows with
  | nil => intro i j row hfind; simp [findFirstMatch] at hfind
  | cons hd tl ih =>
    intro i j row hfind hyes
    rw [findFirstMatch] at hfind
    rw [pbLoop.eq_def]
    dsimp only
    by_cases hm : getCell hd oa = oaId
    · rw [if_pos hm] at hfind
      rw [if_pos hm]
      injection hfind with hfind
      have hrow : row = hd := by
        have := congrArg Prod.snd hfind
        simpa using this.symm
      rw [if_pos (by rw [← hrow]; exact hyes)]
    · rw [if_neg hm] at hfind
      rw [if_neg hm]
      exact ih (i + 1) j row hfind hyes

/-- Claim C3 — apply idempotence: re-invoking `processBatchById` on a
batch whose `Processed` cell is already `"Yes"` returns `true` (the same
success report the original call returned) with an empty side-effect
trace: no download of the output document, no Data-sheet write, no
ledger write; the processed check short-circuits before any I/O
(src/SheetAI.js:6687–6690). -/
theorem processBatchById_idempotent
    (ledger dataGrid : List (List Cell)) (download : Cell → JStr) (oaId : Cell)
    (oa b o p i : Nat) (row : List Cell)
    (hlen : 1 < ledger.length)
    (hoa : jsIndexOf (ledger.headD []) (Cell.str (str "OpenAI Batch ID")) = some oa)
    (hb : jsIndexOf (ledger.headD []) (Cell.str (str "Batch ID")) = some b)
    (ho : jsIndexOf (ledger.headD []) (Cell.str (str "Output File ID")) = some o)
    (hp : jsIndexOf (ledger.headD []) (Cell.str (str "Processed")) = some p)
    (hfind : findFirstMatch oa oaId 1 (ledger.drop 1) = some (i, row))
    (hyes : getCell row p = Cell.str (str "Yes")) :
    processBatchById ledger dataGrid download oaId = (true, []) := by
  unfold processBatchById
  rw [if_neg (by omega), hoa, hb, ho]
  exact pbLoop_processed dataGrid download oaId oa b o
    (jsIndexOf (ledger.headD []) (Cell.str (str "Status")))
    (jsIndexOf (ledger.headD []) (Cell.str (str "Processed")))
    (ledger.drop 1) 1 i row hfind (by rw [hp]; exact hyes)

/-- The Batch Status snapshot for the C3 witness: one batch, completed
and already processed. -/
def c3ledger : List (List Cell) :=
  [[Cell.str (str "Batch ID"), Cell.str (str "OpenAI Batch ID"), Cell.str (str "Status"),
    Cell.str (str "Output File ID"), Cell.str (str "Processed")],
   [Cell.str (str "b_7"), Cell.str (str "batch_oa_7"), Cell.str (str "completed"),
    Cell.str (str "file_7"), Cell.str (str "Yes")]]

def c3download : Cell → JStr := fun _ => str "nonempty"

theorem processBatchById_idempotent_witness :
    1 < c3ledger.length
    ∧ findFirstMatch 1 (Cell.str (str "batch_oa_7")) 1 (c3ledger.drop 1)
        = some (1, c3ledger.getD 1 [])
    ∧ getCell (c3ledger.getD 1 []) 4 = Cell.str (str "Yes")
    ∧ processBatchById c3ledger [] c3download (Cell.str (str "batch_oa_7")) = (true, []) :=
  ⟨by decide, by decide, by decide,
    processBatchById_idempotent c3ledger [] c3download (Cell.str (str "batch_oa_7"))
      1 0 3 4 1 (c3ledger.getD 1 []) (by decide) (by decide) (by decide) (by decide)
      (by decide) (by decide) (by decide)⟩

/-! ## Accounting lemmas for processOutputFile

Per-line weights read off the classification, and the fold lemmas that
express the returned counters and the traced events in terms of them. -/

def isOkLine (l : JStr) : Bool :=
  match classifyLine l with
  | LineClass.ok _ _ _ _ _ _ _ => true
  | _ => false

/-- The classes that run `failedRequests++` (src:6955, 7025, 7030,
7035). -/
def isFailLine (l : JStr) : Bool :=
  match classifyLine l with
  | LineClass.exnRowZero => true
  | LineClass.apiError _ _ => true
  | LineClass.invalidResponse _ _ => true
  | LineClass.contentParseFail _ _ => true
  | LineClass.innerFailAfterWrites _ _ _ => true
  | _ => false

/-- The classes that exit through `continue` without touching either
counter: blank lines and malformed/NaN custom_ids (src:6936, 6949). -/
def isSkipLine (l : JStr) : Bool :=
  match classifyLine l with
  | LineClass.blankSkip => true
  | LineClass.invalidId => true
  | _ => false

def isInvalidIdLine (l : JStr) : Bool :=
  match classifyLine l with
  | LineClass.invalidId => true
  | _ => false

def isApiErrorLine (l : JStr) : Bool :=
  match classifyLine l with
  | LineClass.apiError _ _ => true
  | _ => false

def isContentParseFailLine (l : JStr) : Bool :=
  match classifyLine l with
  | LineClass.contentParseFail _ _ => true
  | _ => false

def isInnerFailLine (l : JStr) : Bool :=
  match classifyLine l with
  | LineClass.innerFailAfterWrites _ _ _ => true
  | _ => false

def okInc : LineClass → Nat
  | LineClass.ok _ _ _ _ _ _ _ => 1
  | _ => 0

def failInc : LineClass → Nat
  | LineClass.exnRowZero => 1
  | LineClass.apiError _ _ => 1
  | LineClass.invalidResponse _ _ => 1
  | LineClass.contentParseFail _ _ => 1
  | LineClass.innerFailAfterWrites _ _ _ => 1
  | _ => 0

/-- Number of result-cell writes a line of this class performs. -/
def rcW : LineClass → Nat
  | LineClass.ok _ _ content _ _ _ _ => (saveKeys content).length
  | LineClass.innerFailAfterWrites _ _ content => (saveKeys content).length
  | _ => 0

def invW : LineClass → Nat
  | LineClass.invalidId => 1
  | _ => 0

def resultCellCount (l : JStr) : Nat := rcW (classifyLine l)

def evIsResultCell : ApplyEvent → Bool
  | ApplyEvent.resultCell _ _ _ => true
  | _ => false

/-- An `addErrorLog` at row 0 with type "Invalid Format" — the record
the decode-failure exits leave (src:6935, 6948). -/
def evIsInvalidFormatLog : ApplyEvent → Bool
  | ApplyEvent.errLog r t => r == 0 && t == str "Invalid Format"
  | _ => false

theorem saveOneKey_spec (n : JStr) (r : Int) (st : ApplyState) (kv : JStr × Json) :
    (saveOneKey n r st kv).success = st.success
    ∧ (saveOneKey n r st kv).failed = st.failed
    ∧ ∃ new, (saveOneKey n r st kv).events = st.events ++ new
        ∧ new.countP evIsResultCell = 1
        ∧ new.countP evIsInvalidFormatLog = 0 := by
  cases h : jsIndexOf st.headers (Cell.str (n ++ str " - " ++ kv.1)) with
  | some c =>
    exact ⟨by simp only [saveOneKey, h], by simp only [saveOneKey, h],
      [ApplyEvent.resultCell r c (jsonToCell kv.2)], by simp only [saveOneKey, h],
      by simp [List.countP_cons, evIsResultCell],
      by simp [List.countP_cons, evIsInvalidFormatLog]⟩
  | none =>
    exact ⟨by simp only [saveOneKey, h], by simp only [saveOneKey, h],
      [ApplyEvent.headerCell st.headers.length (n ++ str " - " ++ kv.1),
        ApplyEvent.resultCell r st.headers.length (jsonToCell kv.2)],
      by simp only [saveOneKey, h],
      by simp [List.countP_cons, evIsResultCell],
      by simp [List.countP_cons, evIsInvalidFormatLog]⟩

theorem saveFold_spec (n : JStr) (r : Int) :
    ∀ (kvs : List (JStr × Json)) (st : ApplyState),
    ((kvs.foldl (saveOneKey n r) st).success = st.success
    ∧ (kvs.foldl (saveOneKey n r) st).failed = st.failed
    ∧ ∃ new, (kvs.foldl (saveOneKey n r) st).events = st.events ++ new
        ∧ new.countP evIsResultCell = kvs.length
        ∧ new.countP evIsInvalidFormatLog = 0) := by
  intro kvs
  induction kvs with
  | nil => intro st; exact ⟨rfl, rfl, [], by simp, rfl, rfl⟩
  | cons kv kvs ih =>
    intro st
    obtain ⟨h1, h2, new1, he, hc1, hc0⟩ := saveOneKey_spec n r st kv
    obtain ⟨g1, g2, new2, ge, gc1, gc0⟩ := ih (saveOneKey n r st kv)
    refine ⟨by rw [List.foldl_cons, g1, h1], by rw [List.foldl_cons, g2, h2],
      new1 ++ new2, ?_, ?_, ?_⟩
    · rw [List.foldl_cons, ge, he, List.append_assoc]
    · rw [List.countP_append, hc1, gc1, List.length_cons]; omega
    · rw [List.countP_append, hc0, gc0]

theorem writeStatus_spec (p : LineParams) (r : Int) (st : ApplyState) :
    (writeStatus p r st).success = st.success
    ∧ (writeStatus p r st).failed = st.failed
    ∧ ∃ new, (writeStatus p r st).events = st.events ++ new
        ∧ new.countP evIsResultCell = 0
        ∧ new.countP evIsInvalidFormatLog = 0 := by
  cases h : p.statusCol with
  | some c =>
    exact ⟨by simp [writeStatus, h], by simp [writeStatus, h],
      [ApplyEvent.statusCell r (Cell.num 2)], by simp [writeStatus, h],
      by simp [List.countP_cons, evIsResultCell],
      by simp [List.countP_cons, evIsInvalidFormatLog]⟩
  | none => exact ⟨by simp [writeStatus, h], by simp [writeStatus, h],
      [], by simp [writeStatus, h], rfl, rfl⟩

theorem backfillBatchId_spec (p : LineParams) (r : Int) (st : ApplyState) :
    (backfillBatchId p r st).success = st.success
    ∧ (backfillBatchId p r st).failed = st.failed
    ∧ ∃ new, (backfillBatchId p r st).events = st.events ++ new
        ∧ new.countP evIsResultCell = 0
        ∧ new.countP evIsInvalidFormatLog = 0 := by
  cases h : p.batchCol with
  | some c =>
    by_cases ht : (st.sheet.read r c).truthy
    · exact ⟨by simp [backfillBatchId, h, ht], by simp [backfillBatchId, h, ht],
        [], by simp [backfillBatchId, h, ht], rfl, rfl⟩
    · exact ⟨by simp [backfillBatchId, h, ht], by simp [backfillBatchId, h, ht],
        [ApplyEvent.batchIdCell r p.batchId], by simp [backfillBatchId, h, ht],
        by simp [List.countP_cons, evIsResultCell],
        by simp [List.countP_cons, evIsInvalidFormatLog]⟩
  | none => exact ⟨by simp [backfillBatchId, h], by simp [backfillBatchId, h],
      [], by simp [backfillBatchId, h], rfl, rfl⟩

theorem applyClass_spec (p : LineParams) (st : ApplyState) (cls : LineClass) :
    (applyClass p st cls).success = st.success + okInc cls
    ∧ (applyClass p st cls).failed = st.failed + failInc cls
    ∧ ∃ new, (applyClass p st cls).events = st.events ++ new
        ∧ new.countP evIsResultCell = rcW cls
        ∧ new.countP evIsInvalidFormatLog = invW cls := by
  cases cls with
  | blankSkip =>
    exact ⟨by simp [applyClass, okInc], by simp [applyClass, failInc],
      [], by simp [applyClass], rfl, rfl⟩
  | exnRowZero =>
    exact ⟨by simp [applyClass, okInc], by simp [applyClass, failInc],
      [ApplyEvent.errLog 0 (str "Processing Error")], by simp [applyClass],
      by simp [List.countP_cons, evIsResultCell, rcW],
      by simp [invW]; decide⟩
  | invalidId =>
    exact ⟨by simp [applyClass, okInc], by simp [applyClass, failInc],
      [ApplyEvent.errLog 0 (str "Invalid Format")], by simp [applyClass],
      by simp [List.countP_cons, evIsResultCell, rcW],
      by simp [invW]; decide⟩
  | apiError row name =>
    refine ⟨by simp [applyClass, okInc], by simp [applyClass, failInc],
      [ApplyEvent.errLog row (str "API Error")], by simp [applyClass],
      by simp [List.countP_cons, evIsResultCell, rcW], ?_⟩
    have hne : (str "API Error" == str "Invalid Format") = false := by decide
    simp [List.countP_cons, evIsInvalidFormatLog, hne, invW]
  | invalidResponse row name =>
    refine ⟨by simp [applyClass, okInc], by simp [applyClass, failInc],
      [ApplyEvent.errLog row (str "Invalid Response")], by simp [applyClass],
      by simp [List.countP_cons, evIsResultCell, rcW], ?_⟩
    have hne : (str "Invalid Response" == str "Invalid Format") = false := by decide
    simp [List.countP_cons, evIsInvalidFormatLog, hne, invW]
  | contentParseFail row name =>
    refine ⟨by simp [applyClass, okInc], by simp [applyClass, failInc],
      [ApplyEvent.errLog row (str "Parse Error")], by simp [applyClass],
      by simp [List.countP_cons, evIsResultCell, rcW], ?_⟩
    have hne : (str "Parse Error" == str "Invalid Format") = false := by decide
    simp [List.countP_cons, evIsInvalidFormatLog, hne, invW]
  | innerFailAfterWrites row name content =>
    obtain ⟨s1, s2, new1, se, sc1, sc0⟩ :=
      saveFold_spec name row (saveKeys content) st
    obtain ⟨w1, w2, new2, we, wc1, wc0⟩ :=
      writeStatus_spec p row (saveResponse name row content st)
    obtain ⟨b1, b2, new3, be, bc1, bc0⟩ :=
      backfillBatchId_spec p row (writeStatus p row (saveResponse name row content st))
    have hsave1 : (saveResponse name row content st).success = st.success := s1
    have hsave2 : (saveResponse name row content st).failed = st.failed := s2
    have hsavee : (saveResponse name row content st).events = st.events ++ new1 := se
    refine ⟨?_, ?_, new1 ++ new2 ++ new3 ++ [ApplyEvent.errLog row (str "Parse Error")],
      ?_, ?_, ?_⟩
    · show (backfillBatchId p row (writeStatus p row (saveResponse name row content st))).success
        = st.success + okInc (LineClass.innerFailAfterWrites row name content)
      rw [b1, w1, hsave1]; simp [okInc]
    · show (backfillBatchId p row (writeStatus p row (saveResponse name row content st))).failed + 1
        = st.failed + failInc (LineClass.innerFailAfterWrites row name content)
      rw [b2, w2, hsave2]; simp [failInc]
    · show (backfillBatchId p row (writeStatus p row (saveResponse name row content st))).events
          ++ [ApplyEvent.errLog row (str "Parse Error")]
        = st.events ++ (new1 ++ new2 ++ new3 ++ [ApplyEvent.errLog row (str "Parse Error")])
      rw [be, we, hsavee]; simp [List.append_assoc]
    · have hne : evIsResultCell (ApplyEvent.errLog row (str "Parse Error")) = false := rfl
      simp [List.countP_append, sc1, wc1, bc1, List.countP_cons, hne, rcW]
    · have hne : (str "Parse Error" == str "Invalid Format") = false := by decide
      simp [List.countP_append, sc0, wc0, bc0, List.countP_cons, evIsInvalidFormatLog,
        hne, invW]
  | ok row name content model inTok outTok totTok =>
    obtain ⟨s1, s2, new1, se, sc1, sc0⟩ :=
      saveFold_spec name row (saveKeys content) st
    obtain ⟨w1, w2, new2, we, wc1, wc0⟩ :=
      writeStatus_spec p row (saveResponse name row content st)
    obtain ⟨b1, b2, new3, be, bc1, bc0⟩ :=
      backfillBatchId_spec p row (writeStatus p row (saveResponse name row content st))
    have hsave1 : (saveResponse name row content st).success = st.success := s1
    have hsave2 : (saveResponse name row content st).failed = st.failed := s2
    have hsavee : (saveResponse name row content st).events = st.events ++ new1 := se
    refine ⟨?_, ?_, new1 ++ new2 ++ new3 ++ [ApplyEvent.execLog row name], ?_, ?_, ?_⟩
    · show (backfillBatchId p row (writeStatus p row (saveResponse name row content st))).success + 1
        = st.success + okInc (LineClass.ok row name content model inTok outTok totTok)
      rw [b1, w1, hsave1]; simp [okInc]
    · show (backfillBatchId p row (writeStatus p row (saveResponse name row content st))).failed
        = st.failed + failInc (LineClass.ok row name content model inTok outTok totTok)
      rw [b2, w2, hsave2]; simp [failInc]
    · show (backfillBatchId p row (writeStatus p row (saveResponse name row content st))).events
          ++ [ApplyEvent.execLog row name]
        = st.events ++ (new1 ++ new2 ++ new3 ++ [ApplyEvent.execLog row name])
      rw [be, we, hsavee]; simp [List.append_assoc]
    · have hne : evIsResultCell (ApplyEvent.execLog row name) = false := rfl
      simp [List.countP_append, sc1, wc1, bc1, List.countP_cons, hne, rcW]
    · have hne : evIsInvalidFormatLog (ApplyEvent.execLog row name) = false := rfl
      simp [List.countP_append, sc0, wc0, bc0, List.countP_cons, hne, invW]

theorem processLines_spec (p : LineParams) :
    ∀ (ls : List JStr) (st : ApplyState),
    (processLines p st ls).success
        = st.success + (ls.map (fun l => okInc (classifyLine l))).sum
    ∧ (processLines p st ls).failed
        = st.failed + (ls.map (fun l => failInc (classifyLine l))).sum
    ∧ ∃ new, (processLines p st ls).events = st.events ++ new
        ∧ new.countP evIsResultCell = (ls.map (fun l => rcW (classifyLine l))).sum
        ∧ new.countP evIsInvalidFormatLog = (ls.map (fun l => invW (classifyLine l))).sum := by
  intro ls
  induction ls with
  | nil => intro st; exact ⟨by simp [processLines], by simp [processLines],
      [], by simp [processLines], by simp, by simp⟩
  | cons l ls ih =>
    intro st
    obtain ⟨h1, h2, new1, he, hc1, hc0⟩ := applyClass_spec p st (classifyLine l)
    obtain ⟨g1, g2, new2, ge, gc1, gc0⟩ := ih (processLine p st l)
    have hstep1 : (processLine p st l).success = st.success + okInc (classifyLine l) := h1
    have hstep2 : (processLine p st l).failed = st.failed + failInc (classifyLine l) := h2
    have hstepe : (processLine p st l).events = st.events ++ new1 := he
    refine ⟨?_, ?_, new1 ++ new2, ?_, ?_, ?_⟩
    · show (processLines p (processLine p st l) ls).success = _
      rw [g1, hstep1]; simp [List.map_cons, List.sum_cons]; omega
    · show (processLines p (processLine p st l) ls).failed = _
      rw [g2, hstep2]; simp [List.map_cons, List.sum_cons]; omega
    · show (processLines p (processLine p st l) ls).events = _
      rw [ge, hstepe, List.append_assoc]
    · rw [List.countP_append, hc1, gc1]; simp [List.map_cons, List.sum_cons]
    · rw [List.countP_append, hc0, gc0]; simp [List.map_cons, List.sum_cons]

theorem addSummaries_spec (st : ApplyState) :
    (addSummaries st).success = st.success
    ∧ (addSummaries st).failed = st.failed
    ∧ (addSummaries st).events.countP evIsResultCell = st.events.countP evIsResultCell
    ∧ (addSummaries st).events.countP evIsInvalidFormatLog
        = st.events.countP evIsInvalidFormatLog := by
  refine ⟨rfl, rfl, ?_, ?_⟩
  · simp only [addSummaries, List.countP_append]
    have hz : (st.metrics.map (fun m => ApplyEvent.summaryLog (m.1 ++ str " (Batch)")
        m.2.count (Option.map (fun c => c * (1 / 2)) m.2.cost))).countP evIsResultCell = 0 := by
      refine List.countP_eq_zero.mpr ?_
      intro e he
      obtain ⟨m, _, rfl⟩ := List.mem_map.mp he
      simp [evIsResultCell]
    omega
  · simp only [addSummaries, List.countP_append]
    have hz : (st.metrics.map (fun m => ApplyEvent.summaryLog (m.1 ++ str " (Batch)")
        m.2.count (Option.map (fun c => c * (1 / 2)) m.2.cost))).countP evIsInvalidFormatLog
        = 0 := by
      refine List.countP_eq_zero.mpr ?_
      intro e he
      obtain ⟨m, _, rfl⟩ := List.mem_map.mp he
      simp [evIsInvalidFormatLog]
    omega

theorem okInc_indicator (l : JStr) :
    okInc (classifyLine l) = if isOkLine l then 1 else 0 := by
  unfold isOkLine
  cases classifyLine l <;> simp [okInc]

theorem failInc_indicator (l : JStr) :
    failInc (classifyLine l) = if isFailLine l then 1 else 0 := by
  unfold isFailLine
  cases classifyLine l <;> simp [failInc]

theorem invW_indicator (l : JStr) :
    invW (classifyLine l) = if isInvalidIdLine l then 1 else 0 := by
  unfold isInvalidIdLine
  cases classifyLine l <;> simp [invW]

/-- Each line lands in exactly one of: counted success, counted failed,
skipped without counting. -/
theorem line_partition (l : JStr) :
    ((if isOkLine l then 1 else 0) + (if isFailLine l then 1 else 0)
      + (if isSkipLine l then 1 else 0) : Nat) = 1 := by
  unfold isOkLine isFailLine isSkipLine
  cases classifyLine l <;> simp

/-- Provider errors, content-parse failures and post-write failures are
pairwise distinct sub-cases of the counted failures. -/
theorem line_subfail (l : JStr) :
    ((if isApiErrorLine l then 1 else 0) + (if isContentParseFailLine l then 1 else 0)
      + (if isInnerFailLine l then 1 else 0) : Nat) ≤ (if isFailLine l then 1 else 0) := by
  unfold isApiErrorLine isContentParseFailLine isInnerFailLine isFailLine
  cases classifyLine l <;> simp

/-- A decode-failure line is neither counted success nor counted failed,
and a content-parse-failure line is counted failed. -/
theorem invalid_id_uncounted (l : JStr) :
    (isInvalidIdLine l = true → isOkLine l = false ∧ isFailLine l = false)
    ∧ (isContentParseFailLine l = true → isFailLine l = true) := by
  unfold isInvalidIdLine isOkLine isFailLine isContentParseFailLine
  cases classifyLine l <;> simp

theorem sum_map_indicator (w : JStr → Nat) (q : JStr → Bool) :
    ∀ ls : List JStr, (∀ l ∈ ls, w l = if q l then 1 else 0) →
    (ls.map w).sum = ls.countP q := by
  intro ls
  induction ls with
  | nil => intro _; simp
  | cons a as ih =>
    intro h
    simp only [List.map_cons, List.sum_cons, List.countP_cons]
    rw [h a (by simp), ih (fun l hl => h l (by simp [hl]))]
    split <;> omega

theorem countP_indicator_le (q1 q2 q3 q : JStr → Bool)
    (h : ∀ l, ((if q1 l then 1 else 0) + (if q2 l then 1 else 0)
      + (if q3 l then 1 else 0) : Nat) ≤ if q l then 1 else 0) :
    ∀ ls : List JStr, ls.countP q1 + ls.countP q2 + ls.countP q3 ≤ ls.countP q := by
  intro ls
  induction ls with
  | nil => simp
  | cons a as ih =>
    simp only [List.countP_cons]
    have := h a
    omega

theorem countP_indicator_partition (q1 q2 q3 : JStr → Bool)
    (h : ∀ l, ((if q1 l then 1 else 0) + (if q2 l then 1 else 0)
      + (if q3 l then 1 else 0) : Nat) = 1) :
    ∀ ls : List JStr, ls.countP q1 + ls.countP q2 + ls.countP q3 = ls.length := by
  intro ls
  induction ls with
  | nil => simp
  | cons a as ih =>
    simp only [List.countP_cons, List.length_cons]
    have := h a
    omega

/-- The counters of a full pass, in terms of the per-line
classification. -/
theorem processOutputFile_counters (grid : List (List Cell)) (doc : JStr) (batchId : Cell) :
    (processOutputFile grid doc batchId).1.total = (nonblankLines doc).length
    ∧ (processOutputFile grid doc batchId).1.success = (nonblankLines doc).countP isOkLine
    ∧ (processOutputFile grid doc batchId).1.failed = (nonblankLines doc).countP isFailLine
    ∧ (processOutputFile grid doc batchId).2.events.countP evIsResultCell
        = ((nonblankLines doc).map resultCellCount).sum
    ∧ (processOutputFile grid doc batchId).2.events.countP evIsInvalidFormatLog
        = (nonblankLines doc).countP isInvalidIdLine := by
  obtain ⟨h1, h2, new, he, hc1, hc0⟩ := processLines_spec
    (applyParams grid batchId) (nonblankLines doc) (applyInit grid)
  obtain ⟨a1, a2, a3, a4⟩ := addSummaries_spec
    (processLines (applyParams grid batchId) (applyInit grid) (nonblankLines doc))
  have hinit1 : (applyInit grid).success = 0 := rfl
  have hinit2 : (applyInit grid).failed = 0 := rfl
  have hinite : (applyInit grid).events = [] := rfl
  rw [hinit1] at h1
  rw [hinit2] at h2
  rw [hinite] at he
  refine ⟨rfl, ?_, ?_, ?_, ?_⟩
  · show (applyFinal grid doc batchId).success = _
    rw [applyFinal, a1, h1, sum_map_indicator _ _ _ (fun l _ => okInc_indicator l)]
    simp
  · show (applyFinal grid doc batchId).failed = _
    rw [applyFinal, a2, h2, sum_map_indicator _ _ _ (fun l _ => failInc_indicator l)]
    simp
  · show (applyFinal grid doc batchId).events.countP evIsResultCell = _
    rw [applyFinal, a3, he]
    simp only [List.nil_append, hc1]
    rfl
  · show (applyFinal grid doc batchId).events.countP evIsInvalidFormatLog = _
    rw [applyFinal, a4, he]
    simp only [List.nil_append, hc0]
    rw [sum_map_indicator _ _ _ (fun l _ => invW_indicator l)]

/-- Claim C8 (amended) — error accounting of `processOutputFile`
(src/SheetAI.js:6905–7062): the failed total counts exactly the
exception, provider-error, invalid-response and content-parse lines;
malformed-correlation-id lines (bad token shape or NaN index,
src:6933–6950) are error-logged at row 0 and then skipped by `continue`
WITHOUT being counted failed (contrary to the claim); unparsable model
content IS counted failed at the decoded row (src:7022–7025); and
processing always continues — the summary covers every non-blank line of
the document. -/
theorem processOutputFile_error_accounting
    (grid : List (List Cell)) (doc : JStr) (batchId : Cell) :
    (processOutputFile grid doc batchId).1.total = (nonblankLines doc).length
    ∧ (processOutputFile grid doc batchId).1.success = (nonblankLines doc).countP isOkLine
    ∧ (processOutputFile grid doc batchId).1.failed = (nonblankLines doc).countP isFailLine
    ∧ (processOutputFile grid doc batchId).2.events.countP evIsInvalidFormatLog
        = (nonblankLines doc).countP isInvalidIdLine
    ∧ (∀ l, isInvalidIdLine l = true → isOkLine l = false ∧ isFailLine l = false)
    ∧ (∀ l, isContentParseFailLine l = true → isFailLine l = true) := by
  obtain ⟨h1, h2, h3, _, h5⟩ := processOutputFile_counters grid doc batchId
  exact ⟨h1, h2, h3, h5, fun l => (invalid_id_uncounted l).1,
    fun l => (invalid_id_uncounted l).2⟩

/-- Minimal Data sheet for the C8 counterexample. -/
def c8grid : List (List Cell) :=
  [[Cell.str (str "Input"), Cell.str (str "Status"), Cell.str (str "Batch ID")],
   [Cell.str (str "hello"), Cell.blank, Cell.blank]]

/-- One result line whose custom_id has a malformed correlation id. -/
def c8doc : JStr := str "\x7b\"custom_id\": \"bogus\"\x7d"

/-- Claim C8 counterexample: a document whose single line carries a
malformed correlation id yields the summary total 1, success 0, failed 0
— the line is error-logged at row 0 with type "Invalid Format" and then
skipped by `continue` (src/SheetAI.js:6933–6937) WITHOUT running
`failedRequests++`, refuting the claim that such lines are counted in
the failed total. -/
theorem processOutputFile_uncounted_decode_error :
    (processOutputFile c8grid c8doc (Cell.str (str "batch_x"))).1
        = ⟨1, 0, 0⟩
    ∧ (processOutputFile c8grid c8doc (Cell.str (str "batch_x"))).2.events.countP
        evIsInvalidFormatLog = 1 := by
  constructor
  · decide
  · decide

/-- Claim C4 — per-line failure isolation and result counters: for any
output document of 10 non-blank lines of which exactly 8 classify as
successful (each saving one result key), exactly one carries a provider
error, and exactly one has unparsable model content, the pass reports
total 10, success 8, failed 2, and the trace holds exactly 8 result-cell
writes; no failure aborts the remaining lines. -/
theorem processOutputFile_ten_line_counts
    (grid : List (List Cell)) (batchId : Cell) (doc : JStr)
    (h10 : (nonblankLines doc).length = 10)
    (hok : (nonblankLines doc).countP isOkLine = 8)
    (hapi : (nonblankLines doc).countP isApiErrorLine = 1)
    (hbad : (nonblankLines doc).countP isContentParseFailLine = 1)
    (hone : ∀ l ∈ nonblankLines doc, isOkLine l = true → resultCellCount l = 1) :
    (processOutputFile grid doc batchId).1 = ⟨10, 8, 2⟩
    ∧ (processOutputFile grid doc batchId).2.events.countP evIsResultCell = 8 := by
  obtain ⟨t1, t2, t3, t4, _⟩ := processOutputFile_counters grid doc batchId
  have hsub := countP_indicator_le isApiErrorLine isContentParseFailLine isInnerFailLine
    isFailLine line_subfail (nonblankLines doc)
  have hpart := countP_indicator_partition isOkLine isFailLine isSkipLine line_partition
    (nonblankLines doc)
  have hfail : (nonblankLines doc).countP isFailLine = 2 := by omega
  have hinner : (nonblankLines doc).countP isInnerFailLine = 0 := by omega
  constructor
  · have hsplit : (processOutputFile grid doc batchId).1
        = ⟨(processOutputFile grid doc batchId).1.total,
           (processOutputFile grid doc batchId).1.success,
           (processOutputFile grid doc batchId).1.failed⟩ := rfl
    rw [hsplit, t1, t2, t3, h10, hok, hfail]
  · rw [t4]
    have hnotinner : ∀ l ∈ nonblankLines doc, isInnerFailLine l = false := by
      intro l hl
      have := List.countP_eq_zero.mp hinner l hl
      simpa using this
    have hw : ∀ l ∈ nonblankLines doc, resultCellCount l = if isOkLine l then 1 else 0 := by
      intro l hl
      by_cases hok2 : isOkLine l = true
      · rw [hone l hl hok2]; simp [hok2]
      · have hni := hnotinner l hl
        have hz : resultCellCount l = 0 := by
          unfold resultCellCount
          revert hok2 hni
          unfold isOkLine isInnerFailLine
          cases classifyLine l <;> simp [rcW]
        rw [hz]; simp [hok2]
    rw [sum_map_indicator _ _ _ hw, hok]

/-- Newline join of result lines, for building witness documents. -/
def joinNl : List JStr → JStr
  | [] => []
  | [l] => l
  | l :: ls => l ++ '\n' :: joinNl ls

/-- Data sheet for the C4 witness: header row plus rows 2–11. -/
def c4grid : List (List Cell) :=
  [Cell.str (str "Input"), Cell.str (str "Status"), Cell.str (str "Batch ID")]
    :: List.replicate 10 [Cell.str (str "x"), Cell.blank, Cell.blank]

/-- A successful result line for the given data row digit. -/
def c4okA (rowDigits : String) : JStr :=
  str "\x7b\"custom_id\": \"row-" ++ str rowDigits
    ++ str "-prompt-1-Summarize\", \"response\": \x7b\"status_code\": 200, \"body\": \x7b\"choices\": [\x7b\"message\": \x7b\"content\": \"\x7b\\\"result\\\": \\\"good\\\"\x7d\"\x7d\x7d], \"usage\": \x7b\"prompt_tokens\": 10, \"completion_tokens\": 5, \"total_tokens\": 15\x7d, \"model\": \"gpt-4o-mini\"\x7d\x7d\x7d"

/-- The 10-line witness document: lines 1–3, 5, 6 and 8–10 succeed,
line 4 carries a provider error, line 7 has unparsable model content. -/
def c4doc : JStr :=
  joinNl
    [c4okA "2", c4okA "3", c4okA "4",
     str "\x7b\"custom_id\": \"row-5-prompt-1-Summarize\", \"error\": \x7b\"message\": \"rate limited\"\x7d\x7d",
     c4okA "6", c4okA "7",
     str "\x7b\"custom_id\": \"row-8-prompt-1-Summarize\", \"response\": \x7b\"status_code\": 200, \"body\": \x7b\"choices\": [\x7b\"message\": \x7b\"content\": \"not json\"\x7d\x7d], \"usage\": \x7b\"prompt_tokens\": 1, \"completion_tokens\": 1, \"total_tokens\": 2\x7d, \"model\": \"gpt-4o-mini\"\x7d\x7d\x7d",
     c4okA "9", c4okA "10", c4okA "11"]

set_option maxRecDepth 100000 in
theorem processOutputFile_ten_line_counts_witness :
    ((nonblankLines c4doc).length = 10
      ∧ (nonblankLines c4doc).countP isOkLine = 8
      ∧ (nonblankLines c4doc).countP isApiErrorLine = 1
      ∧ (nonblankLines c4doc).countP isContentParseFailLine = 1)
    ∧ ((processOutputFile c4grid c4doc (Cell.str (str "batch_w"))).1 = ⟨10, 8, 2⟩
      ∧ (processOutputFile c4grid c4doc (Cell.str (str "batch_w"))).2.events.countP
          evIsResultCell = 8) :=
  ⟨⟨by decide, by decide, by decide, by decide⟩,
    processOutputFile_ten_line_counts c4grid (Cell.str (str "batch_w")) c4doc
      (by decide) (by decide) (by decide) (by decide) (by decide)⟩

end SheetAI
